import Mathlib

/-!
Joulescope driver C template, `src/main.c`.

A shallow embedding of the example program.  The driver library (`jsdrv`) is
not part of the program: its calls are answered by an environment `Env`
(statuses, the device list, the result of `jsdrv_cstr_to_u32`, the signals
delivered while the program polls).  `main` produces the ordered trace of its
observable actions (lines printed, driver calls with the status each returned,
sleeps, the final `jsdrv_finalize`) and its exit status.

The types, macros and string helpers of the library headers that `main` uses
(`struct jsdrv_union_s`, `jsdrv_union_cstr_r`, `jsdrv_union_u8_r`,
`jsdrv_cstr_starts_with`, `jsdrv_topic_set`, `jsdrv_topic_append`,
`struct jsdrv_statistics_s`) are not in `src/`; each is modelled below and
marked as such.  Statuses are `int32_t` and `main` returns `int`: both are
`Int` here and the cast `(int) rc__` is the identity.
-/

namespace JsdrvTemplate

/-! ## The part of the library surface the program uses -/

/-- Modelled from the spec: the "typed value union" of the publish operation.
`enum jsdrv_union_e` is declared in the library header, not in `src/`; only the
two type tags the program builds are kept. -/
inductive jsdrv_union_e
  | JSDRV_UNION_STR
  | JSDRV_UNION_U8
  deriving DecidableEq

/-- Modelled from the spec: the value held by the "typed value union".
`union jsdrv_union_inner_u` is declared in the library header, not in `src/`;
only the members the program writes are kept: `str` (a C string) and `u8` (a
`uint8_t`). -/
inductive jsdrv_union_inner_u
  | str (s : String)
  | u8 (v : Nat)
  deriving DecidableEq

/-- Modelled from the spec: the "typed value union" taken by the publish
operation.  `struct jsdrv_union_s` is declared in the library header, not in
`src/`; the fields kept are the type tag, the retain flag and the value. -/
structure jsdrv_union_s where
  type : jsdrv_union_e
  retain : Bool
  value : jsdrv_union_inner_u
  deriving DecidableEq

/-- Modelled from the spec: the macro `jsdrv_union_cstr_r(_value)` of the
library header `jsdrv/union.h` is not in `src/`.  It builds a retained union of
type string that holds the C string. -/
def jsdrv_union_cstr_r (s : String) : jsdrv_union_s :=
  { type := .JSDRV_UNION_STR, retain := true, value := .str s }

/-- Modelled from the spec: the macro `jsdrv_union_u8_r(_value)` of the library
header `jsdrv/union.h` is not in `src/`, and the spec says of it only that the
publish operation takes a typed value union.  It is taken as the header
defines it: a retained union of type `JSDRV_UNION_U8` whose initialiser is
`.value={.u8=_value}`.  The member `u8` is a `uint8_t`, so C converts the
argument to it: the value kept is the argument modulo `2^8`. -/
def jsdrv_union_u8_r (v : Nat) : jsdrv_union_s :=
  { type := .JSDRV_UNION_U8, retain := true, value := .u8 (v % 2 ^ 8) }

/-- The number carried by a union, when it carries one. -/
def jsdrv_union_s.numeric (u : jsdrv_union_s) : Option Nat :=
  match u.value with
  | .u8 v => some v
  | .str _ => none

/-- Modelled from the spec: the test that an identifier "begins with the
supported device prefix", on the characters of the two strings: true when the
second is exhausted before a mismatch. -/
def cstr_starts_with : List Char → List Char → Bool
  | _, [] => true
  | [], _ :: _ => false
  | c :: s, p :: ps => if c = p then cstr_starts_with s ps else false

/-- Modelled from the spec: the helper `jsdrv_cstr_starts_with(s, prefix)` of the
library header `jsdrv/cstr.h` is not in `src/`; `main` uses its result as the
truth value of "the identifier begins with the supported device prefix". -/
def jsdrv_cstr_starts_with (s pre : String) : Bool :=
  cstr_starts_with s.data pre.data

/-- Modelled from the spec: `jsdrv_topic_set(&t, device)` of the library header
`jsdrv/topic.h` is not in `src/`.  The topic becomes a copy of the device
identifier, under which the spec scopes every topic. -/
def jsdrv_topic_set (device : String) : String := device

/-- Modelled from the spec: `jsdrv_topic_append(&t, subtopic)` of the library
header `jsdrv/topic.h` is not in `src/`.  The subtopic is joined to the
hierarchical topic, with a `/` between them unless the topic is empty or
already ends in one.  The bound on the length of a topic is not modelled. -/
def jsdrv_topic_append (t subtopic : String) : String :=
  match t.data.getLast? with
  | none => t ++ subtopic
  | some c => if c = '/' then t ++ subtopic else t ++ "/" ++ subtopic

/-- The functions a subscription can register: the program has one. -/
inductive Callback
  | on_statistics_value
  deriving DecidableEq

/-- The driver calls whose status `main` checks with `ROE`.  Arguments that are
constants of the library headers (`JSDRV_MSG_DEVICE_LIST`,
`JSDRV_DEVICE_OPEN_MODE_DEFAULTS`, `JSDRV_TIMEOUT_MS_DEFAULT`,
`JSDRV_SFLAG_PUB`) and the context pointer are not recorded.  The constructor
`jsdrv_initialize_` stands for the library call `jsdrv_initialize`. -/
inductive Call
  | jsdrv_initialize_ (timeout_ms : Nat)
  | jsdrv_query_device_list
  | jsdrv_open (device : String)
  | jsdrv_publish (topic : String) (value : jsdrv_union_s)
  | jsdrv_subscribe (topic : String) (cbk_fn : Callback)
  deriving DecidableEq

/-- The `printf` calls of `main`, `usage` and `ROE`, each with the values its
format takes: `ROE x rc__` is the line of macro `ROE` for the expression text
`x` and the status `rc__`. -/
inductive Message
  | usage
  | ROE (x : String) (rc__ : Int)
  | no_device
  | more_than_one
  | unsupported (device : String)
  | found (device : String)
  | header
  | success
  deriving DecidableEq

/-- The observable actions of `main`, in program order. -/
inductive Event
  | printf (m : Message)
  | call (c : Call) (rc : Int)
  | signal (sig : Int)
  | sleep_ms (milliseconds : Nat)
  | jsdrv_finalize (timeout_ms : Nat)
  deriving DecidableEq

/-- Any call into the driver context, `jsdrv_finalize` included. -/
def Event.isDriver : Event → Bool
  | .call _ _ => true
  | .jsdrv_finalize _ => true
  | _ => false

/-- What the world around the program answers.
* `jsdrv_cstr_to_u32 s` is the status and the value written through the
  pointer by the library parser;
* `status trace c` is the status the driver returns to call `c` made after
  the actions in `trace`;
* `devices` is the string a successful device-list query leaves in
  `devices_str`;
* `signals k` are the signals delivered to `signal_handler`, in order, between
  the installation of the handler and the first test of `quit_` (`k = 0`) and
  during the `k`-th sleep.  A signal that arrives before the handler is
  installed ends the process and is outside the model. -/
structure Env where
  jsdrv_cstr_to_u32 : String → Int × Nat
  status : List Event → Call → Int
  devices : String
  signals : Nat → List Int

/-! ## `src/main.c` -/

/-- Macro `ERROR_PREFIX`. -/
def ERROR_PREFIX : String := "## ERROR: "

/-- Value of `SIGINT` in the system header `<signal.h>`. -/
def SIGINT : Int := 2

/-- Value of `SIGABRT` in the system header `<signal.h>` (6 on Linux; only its
being a fixed number matters below). -/
def SIGABRT : Int := 6

/-- Function `signal_handler`, as a function of the signal and of the current
value of the flag `quit_`; the result is the new value of `quit_`. -/
def signal_handler (signal : Int) (quit_ : Int) : Int :=
  if signal = SIGABRT ∨ signal = SIGINT then 1 else quit_

/-- The handler run on each signal of a batch, in order. -/
def deliver (sigs : List Int) (quit_ : Int) : Int :=
  sigs.foldl (fun q s => signal_handler s q) quit_

/-- A finished run of `main`: what it did and the value it returned. -/
structure Run where
  trace : List Event
  exit : Int
  deriving DecidableEq

/-- Why a run of the model gives no `Run`: a loop was cut by the fuel, or
`argv` was read at an index the array does not have. -/
inductive Abort
  | out_of_fuel
  | argv_out_of_bounds
  deriving DecidableEq

/-- The text printed by `usage`. -/
def usage_text : String :=
  "usage: <exe> [--scnt <value]\n" ++
  "\n" ++
  "Options:\n" ++
  "    --scnt   The number of 1 Msps samples per entry.\n" ++
  "             Range 1000 to 1000000.  Default is 500000.\n"

/-- Function `usage`, reached by `return usage();` after the actions in
`trace`: prints the usage text and makes `main` return 1. -/
def usage (trace : List Event) : Run :=
  { trace := trace ++ [.printf .usage], exit := 1 }

/-- The column header printed by `main`. -/
def header_text : String :=
  "# sampled_id," ++
  "i_avg,i_std,i_min,i_max," ++
  "v_avg,v_std,v_min,v_max," ++
  "p_avg,p_std,p_min,p_max," ++
  "charge,energy\n"

/-- The characters each `printf` writes to standard output. -/
def Message.text : Message → String
  | .usage => usage_text
  | .ROE x rc__ => ERROR_PREFIX ++ x ++ " returned " ++ toString rc__ ++ "\n"
  | .no_device => ERROR_PREFIX ++ "no Joulescope device found\n"
  | .more_than_one => ERROR_PREFIX ++ "more than one Joulescope device found\n"
  | .unsupported device =>
    ERROR_PREFIX ++ "this example only supports the JS220, found " ++ device ++ "\n"
  | .found device => "# Found device " ++ device ++ "\n"
  | .header => header_text
  | .success => "# SUCCESS\n"

/-- Macro `ROE(x)` on the status `rc__` of expression `x`: when it is not 0,
print the error line and return the status from `main`; otherwise go on. -/
def ROE (x : String) (rc__ : Int) (trace : List Event)
    (k : List Event → Except Abort Run) : Except Abort Run :=
  if 0 ≠ rc__ then
    .ok { trace := trace ++ [.printf (.ROE x rc__)], exit := rc__ }
  else k trace

/-- Macro `ROE(x)` where `x` is the driver call `c`: the call is made, its
status is the one the environment answers, then `ROE` checks it. -/
def ROE_call (env : Env) (x : String) (c : Call) (trace : List Event)
    (k : List Event → Except Abort Run) : Except Abort Run :=
  let rc__ := env.status trace c
  ROE x rc__ (trace ++ [.call c rc__]) k

/-- The topic built by `publish` and by `subscribe`: `jsdrv_topic_set` with the
device, then `jsdrv_topic_append` with the subtopic. -/
def device_topic (device topic : String) : String :=
  jsdrv_topic_append (jsdrv_topic_set device) topic

/-- Function `publish` as the driver call it makes. -/
def publish (device topic : String) (value : jsdrv_union_s) : Call :=
  .jsdrv_publish (device_topic device topic) value

/-- Function `subscribe` as the driver call it makes. -/
def subscribe (device topic : String) (cbk_fn : Callback) : Call :=
  .jsdrv_subscribe (device_topic device topic) cbk_fn

/-- The variables of the argument loop of `main`: `argc`, how far the pointer
`argv` has advanced from the array it was given, `scnt`, and the indices of
the array read so far. -/
structure ArgState where
  argc : Int
  argv : Nat
  scnt : Nat
  reads : List Nat
  deriving DecidableEq

/-- How one pass of the argument loop ends. -/
inductive ArgStep
  | next (st : ArgState)
  | done (st : ArgState)
  | returned (r : Run) (reads : List Nat)
  | fault (reads : List Nat)
  deriving DecidableEq

/-- One pass of `while (argc) { ... }` in `main`, the loop test included.
`args` is the array `main` was given; `argv[0]` is `args[st.argv]`. -/
def arg_step (env : Env) (args : List String) (st : ArgState) : ArgStep :=
  if st.argc = 0 then .done st
  else
    -- argv[0][0] != '-'
    let reads := st.reads ++ [st.argv]
    match args[st.argv]? with
    | none => .fault reads
    | some a =>
      if a.data.head? ≠ some '-' then .returned (usage []) reads
      else
        -- strcmp(argv[0], "--scnt")
        let reads := reads ++ [st.argv]
        if a = "--scnt" then
          -- ARG_CONSUME(); ARG_REQUIRE();
          let argc := st.argc - 1
          let argv := st.argv + 1
          if argc ≤ 0 then .returned (usage []) reads
          else
            -- ROE(jsdrv_cstr_to_u32(argv[0], &scnt));
            let reads := reads ++ [argv]
            match args[argv]? with
            | none => .fault reads
            | some v =>
              let r := env.jsdrv_cstr_to_u32 v
              if 0 ≠ r.1 then
                .returned
                  { trace := [.printf (.ROE "jsdrv_cstr_to_u32(argv[0], &scnt)" r.1)],
                    exit := r.1 } reads
              else
                -- ARG_CONSUME();
                .next { argc := argc - 1, argv := argv + 1, scnt := r.2 % 2 ^ 32,
                        reads := reads }
        else .returned (usage []) reads

/-- The argument loop of `main`, at most `fuel` passes. -/
def arg_loop (env : Env) (args : List String) : Nat → ArgState → Option ArgStep
  | 0, _ => none
  | fuel + 1, st =>
    match arg_step env args st with
    | .next st1 => arg_loop env args fuel st1
    | r => some r

/-- Lines 125 to 142 of `main`: `scnt = 500000`, `ARG_REQUIRE`, `ARG_CONSUME`
and the argument loop. -/
def parse_args (env : Env) (fuel : Nat) (argc : Int) (args : List String) :
    Option ArgStep :=
  if argc ≤ 0 then some (.returned (usage []) [])
  else arg_loop env args fuel { argc := argc - 1, argv := 1, scnt := 500000, reads := [] }

/-- The polling loop `while (!quit_) { sleep_ms(10); }`, at most `fuel` tests
of the flag.  `k` counts the sleeps done; the signals of `signals (k + 1)`
reach the handler during the next sleep. -/
def poll_loop (signals : Nat → List Int) :
    Nat → Nat → Int → List Event → Except Abort (List Event)
  | 0, _, _, _ => .error .out_of_fuel
  | fuel + 1, k, quit_, trace =>
    if quit_ ≠ 0 then .ok trace
    else
      poll_loop signals fuel (k + 1) (deliver (signals (k + 1)) quit_)
        (trace ++ [.sleep_ms 10])

/-- Lines 144 to 201 of `main`: everything after argument parsing. -/
def main_device (env : Env) (fuel : Nat) (scnt : Nat) : Except Abort Run :=
  ROE_call env "jsdrv_initialize(&context, NULL, 1000)" (.jsdrv_initialize_ 1000) []
    fun trace =>
  ROE_call env "jsdrv_query(context, JSDRV_MSG_DEVICE_LIST, &devices_value, 0)"
    .jsdrv_query_device_list trace fun trace =>
  let devices_str := env.devices
  if devices_str = "" then
    .ok { trace := trace ++ [.printf .no_device], exit := 1 }
  else if ',' ∈ devices_str.data then
    .ok { trace := trace ++ [.printf .more_than_one], exit := 1 }
  else
  let device := devices_str
  if ¬ jsdrv_cstr_starts_with device "u/js220" then
    .ok { trace := trace ++ [.printf (.unsupported device)], exit := 1 }
  else
  let trace := trace ++ [.printf (.found device)]
  ROE_call env "jsdrv_open(context, device, JSDRV_DEVICE_OPEN_MODE_DEFAULTS)"
    (.jsdrv_open device) trace fun trace =>
  ROE_call env "publish(context, device, \"s/i/range/mode\", &jsdrv_union_cstr_r(\"auto\"))"
    (publish device "s/i/range/mode" (jsdrv_union_cstr_r "auto")) trace fun trace =>
  ROE_call env "publish(context, device, \"s/v/range/mode\", &jsdrv_union_cstr_r(\"manual\"))"
    (publish device "s/v/range/mode" (jsdrv_union_cstr_r "manual")) trace fun trace =>
  ROE_call env "publish(context, device, \"s/v/range/select\", &jsdrv_union_cstr_r(\"15 V\"))"
    (publish device "s/v/range/select" (jsdrv_union_cstr_r "15 V")) trace fun trace =>
  ROE_call env "publish(context, device, \"s/stats/scnt\", &jsdrv_union_u8_r(scnt))"
    (publish device "s/stats/scnt" (jsdrv_union_u8_r scnt)) trace fun trace =>
  ROE_call env
    "subscribe(context, device, \"s/stats/value\", JSDRV_SFLAG_PUB, on_statistics_value, NULL)"
    (subscribe device "s/stats/value" .on_statistics_value) trace fun trace =>
  let trace := trace ++ [.printf .header]
  ROE_call env "publish(context, device, \"s/stats/ctrl\", &jsdrv_union_u8_r(1))"
    (publish device "s/stats/ctrl" (jsdrv_union_u8_r 1)) trace fun trace =>
  let trace := trace ++ [.signal SIGABRT, .signal SIGINT]
  match poll_loop env.signals fuel 0 (deliver (env.signals 0) 0) trace with
  | .error e => .error e
  | .ok trace =>
    .ok { trace := trace ++ [.jsdrv_finalize 1000, .printf .success], exit := 0 }

/-- Function `main` on `argc` and the array `argv`; `fuel` bounds the passes of
each of its two loops. -/
def main (fuel : Nat) (argc : Int) (argv : List String) (env : Env) : Except Abort Run :=
  match parse_args env fuel argc argv with
  | none => .error .out_of_fuel
  | some (.fault _) => .error .argv_out_of_bounds
  | some (.returned r _) => .ok r
  | some (.next _) => .error .out_of_fuel
  | some (.done st) => main_device env fuel st.scnt

/-! ## `on_statistics_value` -/

/-- Modelled from the spec: the statistics record, "a sample-block identifier
and average/standard-deviation/min/max for current, voltage, and power, plus
cumulative charge and energy".  `struct jsdrv_statistics_s` is declared in the
library header, not in `src/`; the members kept are those the callback reads,
over a type `I` for the integer member and a type `F` for the `double`
members. -/
structure jsdrv_statistics_s (I F : Type) where
  block_sample_id : I
  i_avg : F
  i_std : F
  i_min : F
  i_max : F
  v_avg : F
  v_std : F
  v_min : F
  v_max : F
  p_avg : F
  p_std : F
  p_min : F
  p_max : F
  charge_f64 : F
  energy_f64 : F

/-- Function `on_statistics_value`: the text its `printf` writes, the format
string piece by piece.  `d64` renders the `PRId64` directive and `g` the
`%g` directive. -/
def on_statistics_value {I F : Type} (d64 : I → String) (g : F → String)
    (s : jsdrv_statistics_s I F) : String :=
  d64 s.block_sample_id ++ "," ++ g s.i_avg ++ "," ++ g s.i_std ++ "," ++ g s.i_min ++ "," ++
    g s.i_max ++ "," ++
  g s.v_avg ++ "," ++ g s.v_std ++ "," ++ g s.v_min ++ "," ++ g s.v_max ++ "," ++
  g s.p_avg ++ "," ++ g s.p_std ++ "," ++ g s.p_min ++ "," ++ g s.p_max ++ "," ++
  g s.charge_f64 ++ "," ++ g s.energy_f64 ++ "\n"

/-! ## Straight-line sequences of checked calls -/

/-- One `ROE(call)` statement with the `printf` lines that precede it. -/
structure Step where
  pre : List Event
  x : String
  c : Call

/-- A sequence of `ROE(call)` statements run after `trace`, then `k`. -/
def run_steps (env : Env) : List Step → List Event →
    (List Event → Except Abort Run) → Except Abort Run
  | [], trace, k => k trace
  | s :: ss, trace, k =>
    ROE_call env s.x s.c (trace ++ s.pre) fun trace => run_steps env ss trace k

/-- The trace of a sequence of steps whose calls all return 0. -/
def ok_events : List Step → List Event
  | [] => []
  | s :: ss => s.pre ++ [.call s.c 0] ++ ok_events ss

/-- The two checked calls before the device list is examined. -/
def steps_query : List Step :=
  [ ⟨[], "jsdrv_initialize(&context, NULL, 1000)", .jsdrv_initialize_ 1000⟩,
    ⟨[], "jsdrv_query(context, JSDRV_MSG_DEVICE_LIST, &devices_value, 0)",
      .jsdrv_query_device_list⟩ ]

/-- The seven checked calls made on a supported device. -/
def steps_device (device : String) (scnt : Nat) : List Step :=
  [ ⟨[.printf (.found device)],
      "jsdrv_open(context, device, JSDRV_DEVICE_OPEN_MODE_DEFAULTS)", .jsdrv_open device⟩,
    ⟨[], "publish(context, device, \"s/i/range/mode\", &jsdrv_union_cstr_r(\"auto\"))",
      publish device "s/i/range/mode" (jsdrv_union_cstr_r "auto")⟩,
    ⟨[], "publish(context, device, \"s/v/range/mode\", &jsdrv_union_cstr_r(\"manual\"))",
      publish device "s/v/range/mode" (jsdrv_union_cstr_r "manual")⟩,
    ⟨[], "publish(context, device, \"s/v/range/select\", &jsdrv_union_cstr_r(\"15 V\"))",
      publish device "s/v/range/select" (jsdrv_union_cstr_r "15 V")⟩,
    ⟨[], "publish(context, device, \"s/stats/scnt\", &jsdrv_union_u8_r(scnt))",
      publish device "s/stats/scnt" (jsdrv_union_u8_r scnt)⟩,
    ⟨[],
      "subscribe(context, device, \"s/stats/value\", JSDRV_SFLAG_PUB, on_statistics_value, NULL)",
      subscribe device "s/stats/value" .on_statistics_value⟩,
    ⟨[.printf .header], "publish(context, device, \"s/stats/ctrl\", &jsdrv_union_u8_r(1))",
      publish device "s/stats/ctrl" (jsdrv_union_u8_r 1)⟩ ]

/-- The end of `main`: handlers installed, polling loop, finalize. -/
def main_poll (env : Env) (fuel : Nat) (trace : List Event) : Except Abort Run :=
  match poll_loop env.signals fuel 0 (deliver (env.signals 0) 0)
      (trace ++ [.signal SIGABRT, .signal SIGINT]) with
  | .error e => .error e
  | .ok trace =>
    .ok { trace := trace ++ [.jsdrv_finalize 1000, .printf .success], exit := 0 }

/-- The part of `main` that follows the device-list query. -/
def main_checks (env : Env) (fuel : Nat) (scnt : Nat) (trace : List Event) :
    Except Abort Run :=
  if env.devices = "" then .ok { trace := trace ++ [.printf .no_device], exit := 1 }
  else if ',' ∈ env.devices.data then
    .ok { trace := trace ++ [.printf .more_than_one], exit := 1 }
  else if ¬ jsdrv_cstr_starts_with env.devices "u/js220" then
    .ok { trace := trace ++ [.printf (.unsupported env.devices)], exit := 1 }
  else run_steps env (steps_device env.devices scnt) trace (main_poll env fuel)

/-- The value of `quit_` at the test that follows `k` sleeps. -/
def quit_at (signals : Nat → List Int) : Nat → Int
  | 0 => deliver (signals 0) 0
  | k + 1 => deliver (signals (k + 1)) (quit_at signals k)

/-- The device list names exactly one device of the supported family: the three
tests of `main` on `devices_str` all pass. -/
def supported (d : String) : Prop :=
  d ≠ "" ∧ ',' ∉ d.data ∧ jsdrv_cstr_starts_with d "u/js220" = true

instance (d : String) : Decidable (supported d) := by
  unfold supported; infer_instance

/-- A checked call that returned a non-zero status. -/
def Event.failed : Event → Bool
  | .call _ rc => decide (rc ≠ 0)
  | _ => false

/-- The indices of `argv` read when a pass of the argument loop ends. -/
def ArgStep.reads : ArgStep → List Nat
  | .next st => st.reads
  | .done st => st.reads
  | .returned _ reads => reads
  | .fault reads => reads

/-- The run that ends in `ROE(jsdrv_cstr_to_u32(argv[0], &scnt))`. -/
def roe_cstr (rc : Int) : Run :=
  ⟨[.printf (.ROE "jsdrv_cstr_to_u32(argv[0], &scnt)" rc)], rc⟩

/-- How argument parsing ends, seen from the list of arguments. -/
inductive ArgOutcome
  | done (scnt : Nat)
  | usage
  | roe (rc : Int)
  deriving DecidableEq

/-- The argument loop read off the list of the arguments that remain: a list
view of `arg_loop`, related to it by `arg_loop_spec`. -/
def arg_spec (env : Env) : List String → Nat → ArgOutcome
  | [], scnt => .done scnt
  | [_], _ => .usage
  | a :: v :: rest, _ =>
    if a = "--scnt" then
      if (env.jsdrv_cstr_to_u32 v).1 ≠ 0 then .roe (env.jsdrv_cstr_to_u32 v).1
      else arg_spec env rest ((env.jsdrv_cstr_to_u32 v).2 % 2 ^ 32)
    else .usage

/-- The result of the argument loop that a list outcome stands for. -/
def ArgOutcome.matches : ArgOutcome → ArgStep → Prop
  | .done scnt, .done st => st.scnt = scnt ∧ st.argc = 0
  | .usage, .returned r _ => r = JsdrvTemplate.usage []
  | .roe rc, .returned r _ => rc ≠ 0 ∧ r = roe_cstr rc
  | _, _ => False

/-- What `main` does for each way argument parsing can end. -/
def after_args (env : Env) (fuel : Nat) : ArgOutcome → Except Abort Run
  | .done scnt => main_device env fuel scnt
  | .usage => .ok (usage [])
  | .roe rc => .ok (roe_cstr rc)

deriving instance DecidableEq for Except

/-- The value of a string of decimal digits, none when a character is not a
digit. -/
def dec_digits : List Char → Nat → Option Nat
  | [], acc => some acc
  | c :: cs, acc =>
    if '0' ≤ c ∧ c ≤ '9' then dec_digits cs (acc * 10 + (c.toNat - '0'.toNat)) else none

/-- A stand-in for the library parser on plain decimal strings: status 0 and
the value for a non-empty string of digits below `2^32`, status 1 otherwise. -/
def demo_cstr_to_u32 (s : String) : Int × Nat :=
  match s.data with
  | [] => (1, 0)
  | cs =>
    match dec_digits cs 0 with
    | some n => if n < 2 ^ 32 then (0, n) else (1, 0)
    | none => (1, 0)

/-- An environment in which every driver call succeeds, the device list is
`devices`, and `SIGINT` arrives during sleep number `quit_after` (before the
first test of the flag when `quit_after = 0`). -/
def demo_env (devices : String) (quit_after : Nat) : Env :=
  { jsdrv_cstr_to_u32 := demo_cstr_to_u32
    status := fun _ _ => 0
    devices := devices
    signals := fun k => if k = quit_after then [SIGINT] else [] }

/-- The environment `demo_env` with a driver that answers `rc` to the call
`bad` and 0 to every other call. -/
def demo_env_failing (devices : String) (quit_after : Nat) (bad : Call) (rc : Int) : Env :=
  { demo_env devices quit_after with
    status := fun _ c => if c = bad then rc else 0 }

/-- The nine checked calls of `main`, in program order. -/
def all_steps (device : String) (scnt : Nat) : List Step :=
  steps_query ++ steps_device device scnt

/-- The trace of a run that reaches the end of `main` after `n` sleeps. -/
def full_trace (device : String) (scnt n : Nat) : List Event :=
  ok_events (all_steps device scnt) ++ [.signal SIGABRT, .signal SIGINT] ++
    List.replicate n (.sleep_ms 10) ++ [.jsdrv_finalize 1000, .printf .success]

/-- The run in which `jsdrv_open` returns 7. -/
def demo_open_failed : Run :=
  { trace :=
      [ .call (.jsdrv_initialize_ 1000) 0,
        .call .jsdrv_query_device_list 0,
        .printf (.found "u/js220/000001"),
        .call (.jsdrv_open "u/js220/000001") 7,
        .printf (.ROE "jsdrv_open(context, device, JSDRV_DEVICE_OPEN_MODE_DEFAULTS)" 7) ],
    exit := 7 }

/-- The run of `main` with no option, one JS220 found, every driver call
successful and `SIGINT` delivered during the first sleep. -/
def demo_default_run : Run :=
  { trace :=
      [ .call (.jsdrv_initialize_ 1000) 0,
        .call .jsdrv_query_device_list 0,
        .printf (.found "u/js220/000001"),
        .call (.jsdrv_open "u/js220/000001") 0,
        .call (.jsdrv_publish "u/js220/000001/s/i/range/mode"
          ⟨.JSDRV_UNION_STR, true, .str "auto"⟩) 0,
        .call (.jsdrv_publish "u/js220/000001/s/v/range/mode"
          ⟨.JSDRV_UNION_STR, true, .str "manual"⟩) 0,
        .call (.jsdrv_publish "u/js220/000001/s/v/range/select"
          ⟨.JSDRV_UNION_STR, true, .str "15 V"⟩) 0,
        .call (.jsdrv_publish "u/js220/000001/s/stats/scnt"
          ⟨.JSDRV_UNION_U8, true, .u8 32⟩) 0,
        .call (.jsdrv_subscribe "u/js220/000001/s/stats/value" .on_statistics_value) 0,
        .printf .header,
        .call (.jsdrv_publish "u/js220/000001/s/stats/ctrl"
          ⟨.JSDRV_UNION_U8, true, .u8 1⟩) 0,
        .signal SIGABRT, .signal SIGINT,
        .sleep_ms 10,
        .jsdrv_finalize 1000,
        .printf .success ],
    exit := 0 }

/-- A `jsdrv_finalize` call. -/
def Event.isFinalize : Event → Bool
  | .jsdrv_finalize _ => true
  | _ => false

/-- A call of `sleep_ms`. -/
def Event.isSleep : Event → Bool
  | .sleep_ms _ => true
  | _ => false

/-- The argument list `--scnt v1 --scnt v2 ...` for the values `vs`. -/
def scnt_pairs : List String → List String
  | [] => []
  | v :: vs => "--scnt" :: v :: scnt_pairs vs

/-- The value of `scnt` after the options `--scnt v` for each `v` of `vs`, in
order, each accepted by the library parser. -/
def scnt_after (env : Env) (vs : List String) (scnt : Nat) : Nat :=
  vs.foldl (fun _ v => (env.jsdrv_cstr_to_u32 v).2 % 2 ^ 32) scnt

/-- The values `on_statistics_value` passes to `printf`, rendered, in the order
of its argument list. -/
def stat_fields {I F : Type} (d64 : I → String) (g : F → String)
    (s : jsdrv_statistics_s I F) : List String :=
  [ d64 s.block_sample_id,
    g s.i_avg, g s.i_std, g s.i_min, g s.i_max,
    g s.v_avg, g s.v_std, g s.v_min, g s.v_max,
    g s.p_avg, g s.p_std, g s.p_min, g s.p_max,
    g s.charge_f64, g s.energy_f64 ]

/-- The column names of the header line of `main`, in order. -/
def header_columns : List String :=
  [ "sampled_id",
    "i_avg", "i_std", "i_min", "i_max",
    "v_avg", "v_std", "v_min", "v_max",
    "p_avg", "p_std", "p_min", "p_max",
    "charge", "energy" ]

/-- The rendered member of the statistics record that a header column names:
`sampled_id` is the sample id of the block, `i`, `v` and `p` are current,
voltage and power, `charge` and `energy` the cumulative `f64` members. -/
def column_value {I F : Type} (d64 : I → String) (g : F → String)
    (s : jsdrv_statistics_s I F) (name : String) : String :=
  if name = "sampled_id" then d64 s.block_sample_id
  else if name = "i_avg" then g s.i_avg
  else if name = "i_std" then g s.i_std
  else if name = "i_min" then g s.i_min
  else if name = "i_max" then g s.i_max
  else if name = "v_avg" then g s.v_avg
  else if name = "v_std" then g s.v_std
  else if name = "v_min" then g s.v_min
  else if name = "v_max" then g s.v_max
  else if name = "p_avg" then g s.p_avg
  else if name = "p_std" then g s.p_std
  else if name = "p_min" then g s.p_min
  else if name = "p_max" then g s.p_max
  else if name = "charge" then g s.charge_f64
  else if name = "energy" then g s.energy_f64
  else ""

/-- Fields joined by commas. -/
def csv_join : List String → String
  | [] => ""
  | [a] => a
  | a :: b :: rest => a ++ "," ++ csv_join (b :: rest)

/-- The characters of a line cut at each comma. -/
def split_commas : List Char → List (List Char)
  | [] => [[]]
  | c :: cs =>
    if c = ',' then [] :: split_commas cs
    else
      match split_commas cs with
      | [] => [[c]]
      | f :: fs => (c :: f) :: fs

/-- The comma-separated fields of a line. -/
def csv_fields (line : String) : List String :=
  (split_commas line.data).map String.mk

/-- A statistics record with integer values, for concrete rows. -/
def demo_statistics : jsdrv_statistics_s Int Int :=
  { block_sample_id := 1000000
    i_avg := 1, i_std := 0, i_min := 0, i_max := 2
    v_avg := 3, v_std := 0, v_min := 3, v_max := 3
    p_avg := 3, p_std := 0, p_min := 0, p_max := 6
    charge_f64 := 5, energy_f64 := 15 }

/-! ## Lemmas on the loops and on sequences of checked calls -/

theorem main_device_eq (env : Env) (fuel scnt : Nat) :
    main_device env fuel scnt = run_steps env steps_query [] (main_checks env fuel scnt) := by
  simp only [main_device, run_steps, steps_query, main_checks, steps_device, main_poll,
    List.append_nil, List.append_assoc, List.singleton_append, List.nil_append]

theorem run_steps_cases (env : Env) (k : List Event → Except Abort Run) :
    ∀ (ss : List Step) (tr : List Event),
      (∃ i s, ss[i]? = some s ∧
        env.status (tr ++ ok_events (ss.take i) ++ s.pre) s.c ≠ 0 ∧
        run_steps env ss tr k =
          .ok { trace := tr ++ ok_events (ss.take i) ++ s.pre ++
                  [.call s.c (env.status (tr ++ ok_events (ss.take i) ++ s.pre) s.c),
                   .printf (.ROE s.x (env.status (tr ++ ok_events (ss.take i) ++ s.pre) s.c))],
                exit := env.status (tr ++ ok_events (ss.take i) ++ s.pre) s.c }) ∨
      ((∀ i s, ss[i]? = some s →
          env.status (tr ++ ok_events (ss.take i) ++ s.pre) s.c = 0) ∧
        run_steps env ss tr k = k (tr ++ ok_events ss)) := by
  intro ss
  induction ss with
  | nil =>
    intro tr
    right
    simp [run_steps, ok_events]
  | cons s ss ih =>
    intro tr
    by_cases h : env.status (tr ++ s.pre) s.c = 0
    · rcases ih (tr ++ s.pre ++ [.call s.c 0]) with ⟨i, s1, hs, hne, hrun⟩ | ⟨hall, hrun⟩
      · left
        refine ⟨i + 1, s1, by simpa using hs, ?_, ?_⟩
        · simpa [ok_events, List.append_assoc] using hne
        · simp only [run_steps, ROE_call, ROE, h]
          simpa [ok_events, List.append_assoc] using hrun
      · right
        constructor
        · intro i s1 hs
          cases i with
          | zero =>
            simp at hs
            subst hs
            simpa [ok_events] using h
          | succ j =>
            have := hall j s1 (by simpa using hs)
            simpa [ok_events, List.append_assoc] using this
        · simp only [run_steps, ROE_call, ROE, h]
          simpa [ok_events, List.append_assoc] using hrun
    · left
      refine ⟨0, s, by simp, by simpa [ok_events] using h, ?_⟩
      simp [run_steps, ROE_call, ROE, ok_events, h, Ne.symm h]

theorem poll_loop_ok_iff (signals : Nat → List Int) :
    ∀ (fuel k : Nat) (tr tr1 : List Event),
      poll_loop signals fuel k (quit_at signals k) tr = .ok tr1 ↔
        ∃ n, n < fuel ∧ (∀ m, m < n → quit_at signals (k + m) = 0) ∧
          quit_at signals (k + n) ≠ 0 ∧ tr1 = tr ++ List.replicate n (.sleep_ms 10) := by
  intro fuel
  induction fuel with
  | zero => intro k tr tr1; simp [poll_loop]
  | succ fuel ih =>
    intro k tr tr1
    by_cases hq : quit_at signals k = 0
    · have hstep : poll_loop signals (fuel + 1) k (quit_at signals k) tr =
          poll_loop signals fuel (k + 1) (quit_at signals (k + 1)) (tr ++ [.sleep_ms 10]) := by
        simp [poll_loop, hq, quit_at]
      rw [hstep, ih]
      constructor
      · rintro ⟨n, hn, hz, hnz, rfl⟩
        refine ⟨n + 1, by omega, ?_, ?_, ?_⟩
        · intro m hm
          cases m with
          | zero => simpa using hq
          | succ j =>
            have := hz j (by omega)
            rwa [show k + (j + 1) = k + 1 + j by omega]
        · rwa [show k + (n + 1) = k + 1 + n by omega]
        · simp [List.replicate_succ]
      · rintro ⟨n, hn, hz, hnz, rfl⟩
        cases n with
        | zero => simp [hq] at hnz
        | succ j =>
          refine ⟨j, by omega, ?_, ?_, ?_⟩
          · intro m hm
            have := hz (m + 1) (by omega)
            rwa [show k + 1 + m = k + (m + 1) by omega]
          · rwa [show k + 1 + j = k + (j + 1) by omega]
          · simp [List.replicate_succ]
    · have hstep : poll_loop signals (fuel + 1) k (quit_at signals k) tr = .ok tr := by
        simp [poll_loop, hq]
      rw [hstep]
      constructor
      · intro h
        injection h with h
        exact ⟨0, by omega, by intro m hm; omega, by simpa using hq, by simp [h]⟩
      · rintro ⟨n, _, hz, _, rfl⟩
        cases n with
        | zero => simp
        | succ j => exact absurd (hz 0 (by omega)) (by simpa using hq)

theorem main_poll_ok_iff (env : Env) (fuel : Nat) (tr : List Event) (r : Run) :
    main_poll env fuel tr = .ok r ↔
      ∃ n, n < fuel ∧ (∀ m, m < n → quit_at env.signals m = 0) ∧
        quit_at env.signals n ≠ 0 ∧
        r = { trace := tr ++ [.signal SIGABRT, .signal SIGINT] ++
                List.replicate n (.sleep_ms 10) ++ [.jsdrv_finalize 1000, .printf .success],
              exit := 0 } := by
  have key := poll_loop_ok_iff env.signals fuel 0 (tr ++ [.signal SIGABRT, .signal SIGINT])
  simp only [quit_at, Nat.zero_add] at key
  unfold main_poll
  cases hp : poll_loop env.signals fuel 0 (deliver (env.signals 0) 0)
      (tr ++ [.signal SIGABRT, .signal SIGINT]) with
  | error e =>
    simp only [false_iff, reduceCtorEq]
    rintro ⟨n, h1, h2, h3, _⟩
    have := (key (tr ++ [.signal SIGABRT, .signal SIGINT] ++
      List.replicate n (.sleep_ms 10))).2 ⟨n, h1, h2, h3, rfl⟩
    rw [hp] at this
    cases this
  | ok t =>
    have := (key t).1 hp
    obtain ⟨n, h1, h2, h3, rfl⟩ := this
    constructor
    · intro h
      injection h with h
      exact ⟨n, h1, h2, h3, h.symm⟩
    · rintro ⟨m, g1, g2, g3, rfl⟩
      have hmn : m = n := by
        rcases Nat.lt_trichotomy m n with h | h | h
        · exact absurd (h2 m h) g3
        · exact h
        · exact absurd (g2 n h) h3
      subst hmn
      rfl

theorem main_checks_cases (env : Env) (fuel scnt : Nat) (tr : List Event) (r : Run)
    (h : main_checks env fuel scnt tr = .ok r) :
    (env.devices = "" ∧ r = ⟨tr ++ [.printf .no_device], 1⟩) ∨
    (env.devices ≠ "" ∧ ',' ∈ env.devices.data ∧ r = ⟨tr ++ [.printf .more_than_one], 1⟩) ∨
    (env.devices ≠ "" ∧ ',' ∉ env.devices.data ∧
      jsdrv_cstr_starts_with env.devices "u/js220" = false ∧
      r = ⟨tr ++ [.printf (.unsupported env.devices)], 1⟩) ∨
    (supported env.devices ∧ ∃ i s rc, (steps_device env.devices scnt)[i]? = some s ∧
      rc ≠ 0 ∧
      rc = env.status (tr ++ ok_events ((steps_device env.devices scnt).take i) ++ s.pre) s.c ∧
      r = ⟨tr ++ ok_events ((steps_device env.devices scnt).take i) ++ s.pre ++
            [.call s.c rc, .printf (.ROE s.x rc)], rc⟩) ∨
    (supported env.devices ∧ ∃ n, n < fuel ∧ (∀ m, m < n → quit_at env.signals m = 0) ∧
      quit_at env.signals n ≠ 0 ∧
      r = ⟨tr ++ ok_events (steps_device env.devices scnt) ++
            [.signal SIGABRT, .signal SIGINT] ++ List.replicate n (.sleep_ms 10) ++
            [.jsdrv_finalize 1000, .printf .success], 0⟩) := by
  unfold main_checks at h
  by_cases h1 : env.devices = ""
  · left
    simp only [h1, if_true] at h
    injection h with h
    exact ⟨h1, by simpa using h.symm⟩
  · right
    by_cases h2 : ',' ∈ env.devices.data
    · left
      simp only [h1, h2, if_true, if_false] at h
      injection h with h
      exact ⟨h1, h2, h.symm⟩
    · right
      by_cases h3 : jsdrv_cstr_starts_with env.devices "u/js220" = true
      · right
        have hs : supported env.devices := ⟨h1, h2, h3⟩
        simp only [h1, h2, h3, if_false, not_true_eq_false] at h
        rcases run_steps_cases env (main_poll env fuel) (steps_device env.devices scnt) tr with
          ⟨i, s, hs1, hne, hrun⟩ | ⟨_, hrun⟩
        · left
          rw [hrun] at h
          injection h with h
          exact ⟨hs, i, s, _, hs1, hne, rfl, h.symm⟩
        · right
          rw [hrun] at h
          obtain ⟨n, a, b, c, d⟩ := (main_poll_ok_iff env fuel _ r).1 h
          exact ⟨hs, n, a, b, c, d⟩
      · left
        have h3f : jsdrv_cstr_starts_with env.devices "u/js220" = false := by
          simpa using h3
        simp only [h1, h2, h3f, if_false, Bool.false_eq_true, not_false_eq_true, if_true] at h
        injection h with h
        exact ⟨h1, h2, h3f, h.symm⟩

theorem main_device_cases (env : Env) (fuel scnt : Nat) (r : Run)
    (h : main_device env fuel scnt = .ok r) :
    (∃ i s rc, steps_query[i]? = some s ∧ rc ≠ 0 ∧
      rc = env.status (ok_events (steps_query.take i) ++ s.pre) s.c ∧
      r = ⟨ok_events (steps_query.take i) ++ s.pre ++
            [.call s.c rc, .printf (.ROE s.x rc)], rc⟩) ∨
    main_checks env fuel scnt (ok_events steps_query) = .ok r := by
  rw [main_device_eq] at h
  rcases run_steps_cases env (main_checks env fuel scnt) steps_query [] with
    ⟨i, s, hs1, hne, hrun⟩ | ⟨_, hrun⟩
  · left
    rw [hrun] at h
    injection h with h
    exact ⟨i, s, _, hs1, hne, by simp, by simpa using h.symm⟩
  · right
    rw [hrun] at h
    simpa using h

theorem arg_step_zero (env : Env) (args : List String) (st : ArgState) (h : st.argc = 0) :
    arg_step env args st = .done st := by
  unfold arg_step
  rw [if_pos h]

theorem arg_step_other (env : Env) (args : List String) (st : ArgState) (a : String)
    (h : st.argc ≠ 0) (hget : args[st.argv]? = some a) (ha : a ≠ "--scnt") :
    ∃ reads, arg_step env args st = .returned (usage []) reads ∧
      ∀ i ∈ reads, i ∈ st.reads ∨ i = st.argv := by
  unfold arg_step
  rw [if_neg h]
  simp only [hget]
  by_cases hh : a.data.head? = some '-'
  · refine ⟨st.reads ++ [st.argv] ++ [st.argv], ?_, ?_⟩
    · simp only [hh, ne_eq, not_true_eq_false, if_false, ha]
    · intro i hi
      simp only [List.mem_append, List.mem_singleton] at hi
      tauto
  · refine ⟨st.reads ++ [st.argv], ?_, ?_⟩
    · simp only [ne_eq, hh, not_false_eq_true, if_true]
    · intro i hi
      simp only [List.mem_append, List.mem_singleton] at hi
      tauto

theorem arg_step_last (env : Env) (args : List String) (st : ArgState)
    (h : st.argc = 1) (hget : args[st.argv]? = some "--scnt") :
    arg_step env args st = .returned (usage []) (st.reads ++ [st.argv] ++ [st.argv]) := by
  unfold arg_step
  have h0 : st.argc ≠ 0 := by omega
  have hhead : ("--scnt" : String).data.head? = some '-' := rfl
  rw [if_neg h0]
  simp only [hget, hhead, ne_eq, not_true_eq_false, if_false, if_true]
  rw [if_pos (by omega)]

theorem arg_step_pair (env : Env) (args : List String) (st : ArgState) (v : String)
    (h : 2 ≤ st.argc) (hget : args[st.argv]? = some "--scnt")
    (hget1 : args[st.argv + 1]? = some v) :
    arg_step env args st =
      if (env.jsdrv_cstr_to_u32 v).1 ≠ 0 then
        .returned (roe_cstr (env.jsdrv_cstr_to_u32 v).1)
          (st.reads ++ [st.argv] ++ [st.argv] ++ [st.argv + 1])
      else
        .next ⟨st.argc - 2, st.argv + 2, (env.jsdrv_cstr_to_u32 v).2 % 2 ^ 32,
          st.reads ++ [st.argv] ++ [st.argv] ++ [st.argv + 1]⟩ := by
  unfold arg_step
  have h0 : st.argc ≠ 0 := by omega
  have hhead : ("--scnt" : String).data.head? = some '-' := rfl
  rw [if_neg h0]
  simp only [hget, hhead, ne_eq, not_true_eq_false, if_false, if_true]
  rw [if_neg (by omega)]
  simp only [hget1]
  by_cases hrc : (env.jsdrv_cstr_to_u32 v).1 = 0
  · simp only [hrc, not_true_eq_false, if_false]
    congr 2
    omega
  · simp only [hrc, Ne.symm hrc, not_false_eq_true, if_true, roe_cstr]

theorem arg_loop_spec (env : Env) (args : List String) :
    ∀ (fuel n : Nat) (st : ArgState), st.argc = (n : Int) → n < fuel →
      st.argv + n ≤ args.length → (∀ i ∈ st.reads, i < st.argv + n) →
      ∃ res, arg_loop env args fuel st = some res ∧
        (arg_spec env ((args.drop st.argv).take n) st.scnt).matches res ∧
        ∀ i ∈ res.reads, i < st.argv + n := by
  intro fuel
  induction fuel with
  | zero => intro n st _ h; omega
  | succ fuel ih =>
    intro n st hn hf hlen hreads
    rcases n with _ | n
    · refine ⟨.done st, ?_, ?_, ?_⟩
      · simp only [arg_loop, arg_step_zero env args st (by simpa using hn)]
      · simp [arg_spec, ArgOutcome.matches, hn]
      · simpa [ArgStep.reads] using hreads
    · have hp : st.argv < args.length := by omega
      have hdrop : args.drop st.argv = args[st.argv] :: args.drop (st.argv + 1) :=
        List.drop_eq_getElem_cons hp
      have hget : args[st.argv]? = some args[st.argv] := List.getElem?_eq_getElem hp
      have hne : st.argc ≠ 0 := by omega
      by_cases ha : args[st.argv] = "--scnt"
      · rw [ha] at hget
        rcases n with _ | n
        · refine ⟨.returned (usage []) (st.reads ++ [st.argv] ++ [st.argv]), ?_, ?_, ?_⟩
          · simp only [arg_loop, arg_step_last env args st (by simpa using hn) hget]
          · rw [hdrop]
            exact rfl
          · intro i hi
            simp only [ArgStep.reads, List.mem_append, List.mem_singleton] at hi
            rcases hi with (hi | hi) | hi
            · exact hreads i hi
            · omega
            · omega
        · have hp1 : st.argv + 1 < args.length := by omega
          have hdrop1 : args.drop (st.argv + 1) =
              args[st.argv + 1] :: args.drop (st.argv + 2) := List.drop_eq_getElem_cons hp1
          have hget1 : args[st.argv + 1]? = some args[st.argv + 1] :=
            List.getElem?_eq_getElem hp1
          have hL : (args.drop st.argv).take (n + 1 + 1) =
              "--scnt" :: args[st.argv + 1] :: (args.drop (st.argv + 2)).take n := by
            rw [hdrop, hdrop1, ha]; rfl
          have hstep := arg_step_pair env args st _ (by omega) hget hget1
          by_cases hrc : (env.jsdrv_cstr_to_u32 args[st.argv + 1]).1 = 0
          · rw [if_neg (by simpa using hrc)] at hstep
            obtain ⟨res, h1, h2, h3⟩ := ih n
              ⟨st.argc - 2, st.argv + 2, (env.jsdrv_cstr_to_u32 args[st.argv + 1]).2 % 2 ^ 32,
                st.reads ++ [st.argv] ++ [st.argv] ++ [st.argv + 1]⟩
              (by show st.argc - 2 = (n : Int); omega)
              (by omega) (by show st.argv + 2 + n ≤ args.length; omega) (by
                intro i hi
                simp only [List.mem_append, List.mem_singleton] at hi
                show i < st.argv + 2 + n
                rcases hi with ((hi | hi) | hi) | hi
                · have := hreads i hi; omega
                · omega
                · omega
                · omega)
            refine ⟨res, ?_, ?_, ?_⟩
            · simp only [arg_loop, hstep]
              exact h1
            · rw [hL]
              simp only [arg_spec, if_true, ne_eq, hrc, not_true_eq_false, if_false]
              exact h2
            · intro i hi
              have := h3 i hi
              simp only at this
              omega
          · rw [if_pos hrc] at hstep
            refine ⟨.returned (roe_cstr (env.jsdrv_cstr_to_u32 args[st.argv + 1]).1)
              (st.reads ++ [st.argv] ++ [st.argv] ++ [st.argv + 1]), ?_, ?_, ?_⟩
            · simp only [arg_loop, hstep]
            · rw [hL]
              simp only [arg_spec, if_true, ne_eq, hrc, not_false_eq_true]
              exact ⟨hrc, rfl⟩
            · intro i hi
              simp only [ArgStep.reads, List.mem_append, List.mem_singleton] at hi
              rcases hi with ((hi | hi) | hi) | hi
              · have := hreads i hi; omega
              · omega
              · omega
              · omega
      · have hspec : arg_spec env ((args.drop st.argv).take (n + 1)) st.scnt = .usage := by
          rw [hdrop]
          rcases n with _ | n
          · simp [arg_spec]
          · rcases hd : args.drop (st.argv + 1) with _ | ⟨v, rest⟩
            · simp [arg_spec]
            · simp [arg_spec, ha]
        obtain ⟨reads, hst, hr⟩ := arg_step_other env args st _ hne hget ha
        refine ⟨.returned (usage []) reads, ?_, ?_, ?_⟩
        · simp only [arg_loop, hst]
        · rw [hspec]
          exact rfl
        · intro i hi
          rcases hr i hi with h | h
          · exact hreads i h
          · omega

theorem parse_args_spec (env : Env) (fuel argc : Nat) (argv : List String)
    (h1 : 1 ≤ argc) (hlen : argc ≤ argv.length) (hf : argc ≤ fuel) :
    ∃ res, parse_args env fuel (argc : Int) argv = some res ∧
      (arg_spec env ((argv.drop 1).take (argc - 1)) 500000).matches res ∧
      ∀ i ∈ res.reads, i < argc := by
  have hpos : ¬ ((argc : Int) ≤ 0) := by omega
  obtain ⟨res, h, hm, hr⟩ := arg_loop_spec env argv fuel (argc - 1)
    ⟨(argc : Int) - 1, 1, 500000, []⟩ (by show (argc : Int) - 1 = ((argc - 1 : Nat) : Int); omega)
    (by omega) (by show 1 + (argc - 1) ≤ argv.length; omega) (by intro i hi; cases hi)
  refine ⟨res, ?_, hm, ?_⟩
  · unfold parse_args
    rw [if_neg hpos]
    exact h
  · intro i hi
    have := hr i hi
    simp only at this
    omega

theorem main_spec (env : Env) (fuel argc : Nat) (argv : List String)
    (h1 : 1 ≤ argc) (hlen : argc ≤ argv.length) (hf : argc ≤ fuel) :
    main fuel (argc : Int) argv env =
      after_args env fuel (arg_spec env ((argv.drop 1).take (argc - 1)) 500000) := by
  obtain ⟨res, h, hm, _⟩ := parse_args_spec env fuel argc argv h1 hlen hf
  unfold main
  rw [h]
  cases hs : arg_spec env ((argv.drop 1).take (argc - 1)) 500000 with
  | done scnt =>
    rw [hs] at hm
    cases res with
    | done st =>
      obtain ⟨h2, _⟩ := hm
      simp only [after_args, h2]
    | next st => exact absurd hm (by simp [ArgOutcome.matches])
    | returned r rd => exact absurd hm (by simp [ArgOutcome.matches])
    | fault rd => exact absurd hm (by simp [ArgOutcome.matches])
  | usage =>
    rw [hs] at hm
    cases res with
    | returned r rd =>
      have h2 : r = usage [] := hm
      simp only [after_args, h2]
    | next st => exact absurd hm (by simp [ArgOutcome.matches])
    | done st => exact absurd hm (by simp [ArgOutcome.matches])
    | fault rd => exact absurd hm (by simp [ArgOutcome.matches])
  | roe rc =>
    rw [hs] at hm
    cases res with
    | returned r rd =>
      have h2 : rc ≠ 0 ∧ r = roe_cstr rc := hm
      simp only [after_args, h2.2]
    | next st => exact absurd hm (by simp [ArgOutcome.matches])
    | done st => exact absurd hm (by simp [ArgOutcome.matches])
    | fault rd => exact absurd hm (by simp [ArgOutcome.matches])

theorem main_cons (env : Env) (fuel : Nat) (exe : String) (rest : List String)
    (hf : rest.length + 1 ≤ fuel) :
    main fuel ((exe :: rest).length : Int) (exe :: rest) env =
      after_args env fuel (arg_spec env rest 500000) := by
  have := main_spec env fuel (exe :: rest).length (exe :: rest) (by simp) (by simp)
    (by simpa using hf)
  simpa using this

theorem main_nonpos (env : Env) (fuel : Nat) (argc : Int) (argv : List String)
    (h : argc ≤ 0) : main fuel argc argv env = .ok (usage []) := by
  unfold main parse_args
  rw [if_pos h]

/-- C1 (amended). For every argument vector `<exe> --scnt <v>` in which
`jsdrv_cstr_to_u32` returns a non-zero status for `<v>`, `main` prints the `ROE`
error line for that call and status, makes no driver call and returns the
status: the usage text is not printed. -/
theorem scnt_parse_error_roe (env : Env) (fuel : Nat) (exe v : String)
    (hfuel : 0 < fuel) (hrc : (env.jsdrv_cstr_to_u32 v).1 ≠ 0) :
    main fuel 3 [exe, "--scnt", v] env =
        .ok { trace := [.printf (.ROE "jsdrv_cstr_to_u32(argv[0], &scnt)"
                          (env.jsdrv_cstr_to_u32 v).1)],
              exit := (env.jsdrv_cstr_to_u32 v).1 } ∧
      (Message.ROE "jsdrv_cstr_to_u32(argv[0], &scnt)" (env.jsdrv_cstr_to_u32 v).1).text =
        "## ERROR: jsdrv_cstr_to_u32(argv[0], &scnt) returned " ++
          toString (env.jsdrv_cstr_to_u32 v).1 ++ "\n" := by
  refine ⟨?_, rfl⟩
  obtain ⟨f, rfl⟩ : ∃ f, fuel = f + 1 := ⟨fuel - 1, by omega⟩
  have hstep := arg_step_pair env [exe, "--scnt", v] ⟨2, 1, 500000, []⟩ v (by decide) rfl rfl
  rw [if_pos hrc] at hstep
  have hp : parse_args env (f + 1) 3 [exe, "--scnt", v] =
      some (.returned (roe_cstr (env.jsdrv_cstr_to_u32 v).1) ([] ++ [1] ++ [1] ++ [1 + 1])) := by
    unfold parse_args
    rw [if_neg (by decide)]
    show arg_loop env [exe, "--scnt", v] (f + 1) ⟨2, 1, 500000, []⟩ = _
    simp only [arg_loop, hstep]
  unfold main
  rw [hp]
  rfl

/-- C1, instance: the value `abc`, which the stand-in parser rejects with
status 1. -/
theorem scnt_parse_error_roe_witness :
    main 1 3 ["exe", "--scnt", "abc"] (demo_env "u/js220/000001" 0) =
        .ok { trace := [.printf (.ROE "jsdrv_cstr_to_u32(argv[0], &scnt)" 1)], exit := 1 } ∧
      (Message.ROE "jsdrv_cstr_to_u32(argv[0], &scnt)" 1).text =
        "## ERROR: jsdrv_cstr_to_u32(argv[0], &scnt) returned " ++ toString (1 : Int) ++ "\n" :=
  scnt_parse_error_roe (demo_env "u/js220/000001" 0) 1 "exe" "abc" (by decide) (by decide)

/-- C1, counterexample: for the value `abc`, rejected by the parser, the run of
`main` is not the usage run; it is the `ROE` line with exit status 1. -/
theorem scnt_parse_error_not_usage :
    ((demo_env "u/js220/000001" 0).jsdrv_cstr_to_u32 "abc").1 ≠ 0 ∧
      main 3 3 ["exe", "--scnt", "abc"] (demo_env "u/js220/000001" 0) ≠ .ok (usage []) ∧
      main 3 3 ["exe", "--scnt", "abc"] (demo_env "u/js220/000001" 0) =
        .ok { trace := [.printf (.ROE "jsdrv_cstr_to_u32(argv[0], &scnt)" 1)], exit := 1 } := by
  decide

/-- C2. The run of `main` without option, with one JS220 and a driver that
answers 0: the union published to `s/stats/scnt` is built by `jsdrv_union_u8_r`
from the default `scnt = 500000` and carries 32, which is 500000 modulo 256,
not 500000. -/
theorem default_scnt_published_mod_256 :
    main 2 1 ["exe"] (demo_env "u/js220/000001" 1) =
      .ok { trace :=
              [ .call (.jsdrv_initialize_ 1000) 0,
                .call .jsdrv_query_device_list 0,
                .printf (.found "u/js220/000001"),
                .call (.jsdrv_open "u/js220/000001") 0,
                .call (.jsdrv_publish "u/js220/000001/s/i/range/mode"
                  ⟨.JSDRV_UNION_STR, true, .str "auto"⟩) 0,
                .call (.jsdrv_publish "u/js220/000001/s/v/range/mode"
                  ⟨.JSDRV_UNION_STR, true, .str "manual"⟩) 0,
                .call (.jsdrv_publish "u/js220/000001/s/v/range/select"
                  ⟨.JSDRV_UNION_STR, true, .str "15 V"⟩) 0,
                .call (.jsdrv_publish "u/js220/000001/s/stats/scnt"
                  ⟨.JSDRV_UNION_U8, true, .u8 32⟩) 0,
                .call (.jsdrv_subscribe "u/js220/000001/s/stats/value" .on_statistics_value) 0,
                .printf .header,
                .call (.jsdrv_publish "u/js220/000001/s/stats/ctrl"
                  ⟨.JSDRV_UNION_U8, true, .u8 1⟩) 0,
                .signal SIGABRT, .signal SIGINT,
                .sleep_ms 10,
                .jsdrv_finalize 1000,
                .printf .success ],
            exit := 0 } ∧
      (jsdrv_union_u8_r 500000).numeric = some 32 ∧
      (jsdrv_union_u8_r 500000).numeric ≠ some 500000 := by
  exact ⟨rfl, rfl, by decide⟩

theorem run_steps_append (env : Env) (k : List Event → Except Abort Run) :
    ∀ (A B : List Step) (tr : List Event),
      run_steps env (A ++ B) tr k = run_steps env A tr (fun t => run_steps env B t k) := by
  intro A
  induction A with
  | nil => intro B tr; rfl
  | cons s A ih =>
    intro B tr
    show run_steps env (s :: (A ++ B)) tr k = _
    simp only [run_steps, ROE_call, ROE, ih]

theorem ok_events_append (A B : List Step) :
    ok_events (A ++ B) = ok_events A ++ ok_events B := by
  induction A with
  | nil => rfl
  | cons s A ih => simp [ok_events, ih]

theorem main_device_supported (env : Env) (fuel scnt : Nat) (hs : supported env.devices) :
    main_device env fuel scnt =
      run_steps env (all_steps env.devices scnt) [] (main_poll env fuel) := by
  rw [main_device_eq, all_steps, run_steps_append]
  congr 1
  funext t
  obtain ⟨h1, h2, h3⟩ := hs
  simp only [main_checks, h1, h2, h3, if_false, not_true_eq_false]

theorem main_device_shape (env : Env) (fuel scnt : Nat) (r : Run)
    (h : main_device env fuel scnt = .ok r) :
    (∃ i s rc, (all_steps env.devices scnt)[i]? = some s ∧ rc ≠ 0 ∧
      rc = env.status (ok_events ((all_steps env.devices scnt).take i) ++ s.pre) s.c ∧
      (2 ≤ i → supported env.devices) ∧
      r = ⟨ok_events ((all_steps env.devices scnt).take i) ++ s.pre ++
            [.call s.c rc, .printf (.ROE s.x rc)], rc⟩) ∨
    (env.devices = "" ∧ r = ⟨ok_events steps_query ++ [.printf .no_device], 1⟩) ∨
    (env.devices ≠ "" ∧ ',' ∈ env.devices.data ∧
      r = ⟨ok_events steps_query ++ [.printf .more_than_one], 1⟩) ∨
    (env.devices ≠ "" ∧ ',' ∉ env.devices.data ∧
      jsdrv_cstr_starts_with env.devices "u/js220" = false ∧
      r = ⟨ok_events steps_query ++ [.printf (.unsupported env.devices)], 1⟩) ∨
    (supported env.devices ∧ ∃ n, n < fuel ∧ (∀ m, m < n → quit_at env.signals m = 0) ∧
      quit_at env.signals n ≠ 0 ∧ r = ⟨full_trace env.devices scnt n, 0⟩) := by
  rcases main_device_cases env fuel scnt r h with ⟨i, s, rc, hs, hrc, hst, hr⟩ | h
  · left
    have hi : i < 2 := by
      have := (List.getElem?_eq_some.1 hs).1
      simpa [steps_query] using this
    refine ⟨i, s, rc, ?_, hrc, ?_, by omega, ?_⟩
    · rw [all_steps, List.getElem?_append_left (by simpa [steps_query] using hi)]
      exact hs
    · rw [hst, all_steps, List.take_append_of_le_length (by simp [steps_query]; omega)]
    · rw [hr, all_steps, List.take_append_of_le_length (by simp [steps_query]; omega)]
  · rcases main_checks_cases env fuel scnt _ r h with h | h | h | h | h
    · exact Or.inr (Or.inl h)
    · exact Or.inr (Or.inr (Or.inl h))
    · exact Or.inr (Or.inr (Or.inr (Or.inl h)))
    · left
      obtain ⟨hsup, i, s, rc, hs, hrc, hst, hr⟩ := h
      refine ⟨i + 2, s, rc, ?_, hrc, ?_, fun _ => hsup, ?_⟩
      · rw [all_steps, List.getElem?_append_right (by simp [steps_query])]
        simpa [steps_query] using hs
      · rw [hst, all_steps, List.take_append_eq_append_take]
        simp [steps_query, ok_events_append, ok_events]
      · rw [hr, all_steps, List.take_append_eq_append_take]
        simp [steps_query, ok_events_append, ok_events]
    · right; right; right; right
      obtain ⟨hsup, n, h1, h2, h3, hr⟩ := h
      refine ⟨hsup, n, h1, h2, h3, ?_⟩
      rw [hr, full_trace, all_steps, ok_events_append]

theorem all_steps_get {d : String} {scnt i : Nat} {s : Step}
    (h : (all_steps d scnt)[i]? = some s) : i < 9 := by
  have := (List.getElem?_eq_some.1 h).1
  simpa [all_steps, steps_query, steps_device] using this

theorem arg_step_returned (env : Env) (args : List String) (st : ArgState) (r : Run)
    (reads : List Nat) (h : arg_step env args st = .returned r reads) :
    r = usage [] ∨ ∃ rc, rc ≠ 0 ∧ r = roe_cstr rc := by
  unfold arg_step at h
  dsimp only at h
  repeat' split at h
  all_goals first
    | (injection h with h1 _; exact Or.inl h1.symm)
    | (rename_i hrc; injection h with h1 _; exact Or.inr ⟨_, Ne.symm hrc, h1.symm⟩)
    | cases h

theorem arg_loop_returned (env : Env) (args : List String) :
    ∀ (fuel : Nat) (st : ArgState) (r : Run) (reads : List Nat),
      arg_loop env args fuel st = some (.returned r reads) →
      r = usage [] ∨ ∃ rc, rc ≠ 0 ∧ r = roe_cstr rc := by
  intro fuel
  induction fuel with
  | zero => intro st r reads h; cases h
  | succ fuel ih =>
    intro st r reads h
    simp only [arg_loop] at h
    cases hs : arg_step env args st with
    | next st1 =>
      rw [hs] at h
      exact ih st1 r reads h
    | done st1 => rw [hs] at h; cases h
    | fault rd => rw [hs] at h; cases h
    | returned r1 rd =>
      rw [hs] at h
      injection h with h
      injection h with h1 h2
      subst h1
      exact arg_step_returned env args st r1 rd hs

theorem main_ok_cases (env : Env) (fuel : Nat) (argc : Int) (argv : List String) (r : Run)
    (h : main fuel argc argv env = .ok r) :
    r = usage [] ∨ (∃ rc, rc ≠ 0 ∧ r = roe_cstr rc) ∨
      ∃ st, parse_args env fuel argc argv = some (.done st) ∧
        main_device env fuel st.scnt = .ok r := by
  unfold main at h
  cases hp : parse_args env fuel argc argv with
  | none => rw [hp] at h; cases h
  | some res =>
    rw [hp] at h
    cases res with
    | fault rd => cases h
    | next st => cases h
    | done st => exact Or.inr (Or.inr ⟨st, rfl, h⟩)
    | returned r1 rd =>
      injection h with h
      subst h
      unfold parse_args at hp
      split at hp
      · injection hp with hp
        injection hp with h1 _
        exact Or.inl h1.symm
      · rcases arg_loop_returned env argv fuel _ r1 rd hp with h | h
        · exact Or.inl h
        · exact Or.inr (Or.inl h)

theorem failed_unique (x : Event) (B : List Event) (hB : ∀ e ∈ B, e.failed = false) :
    ∀ (A : List Event), (∀ e ∈ A, e.failed = false) →
      ∀ (pre post : List Event) (c : Call) (rc : Int),
        A ++ x :: B = pre ++ .call c rc :: post → rc ≠ 0 →
        pre = A ∧ x = .call c rc ∧ post = B := by
  intro A
  induction A with
  | nil =>
    intro _ pre post c rc h hrc
    cases pre with
    | nil =>
      simp only [List.nil_append, List.cons.injEq] at h
      exact ⟨rfl, h.1, h.2.symm⟩
    | cons p pre =>
      simp only [List.nil_append, List.cons_append, List.cons.injEq] at h
      have hm : Event.call c rc ∈ B := by rw [h.2]; simp
      have := hB _ hm
      simp [Event.failed, hrc] at this
  | cons a A ih =>
    intro hA pre post c rc h hrc
    cases pre with
    | nil =>
      simp only [List.nil_append, List.cons_append, List.cons.injEq] at h
      have := hA a (by simp)
      rw [h.1] at this
      simp [Event.failed, hrc] at this
    | cons p pre =>
      simp only [List.cons_append, List.cons.injEq] at h
      obtain ⟨h1, h2, h3⟩ := ih (fun e he => hA e (by simp [he])) pre post c rc h.2 hrc
      exact ⟨by rw [h.1, h1], h2, h3⟩

theorem no_failed_split (l pre post : List Event) (c : Call) (rc : Int)
    (hl : ∀ e ∈ l, e.failed = false) (h : l = pre ++ .call c rc :: post) : rc = 0 := by
  have := hl (.call c rc) (by rw [h]; simp)
  simpa [Event.failed] using this

theorem full_trace_not_failed (d : String) (scnt n : Nat) :
    ∀ e ∈ full_trace d scnt n, e.failed = false := by
  simp [full_trace, all_steps, steps_query, steps_device, ok_events, Event.failed, or_imp,
    forall_and]

theorem ok_prefix_not_failed {d : String} {scnt i : Nat} {s : Step}
    (h : (all_steps d scnt)[i]? = some s) :
    ∀ e ∈ ok_events ((all_steps d scnt).take i) ++ s.pre, e.failed = false := by
  have hi := all_steps_get h
  interval_cases i <;> simp [all_steps, steps_query, steps_device] at h <;> subst h <;>
    simp [all_steps, steps_query, steps_device, ok_events, Event.failed, or_imp, forall_and]

/-- C5. Every checked driver call of `main` that returns a non-zero status is
the last driver call of the run: after it `main` only prints the `ROE` line
for that status and returns the status (no retry, no later step, no
`jsdrv_finalize`); and a run whose driver calls all returned 0 has taken no
`ROE` exit. -/
theorem roe_stops_main (env : Env) (fuel : Nat) (argc : Int) (argv : List String) (r : Run)
    (h : main fuel argc argv env = .ok r) :
    (∀ pre c rc post, r.trace = pre ++ .call c rc :: post → rc ≠ 0 →
      (∀ e ∈ post, e.isDriver = false) ∧ (∃ x, post = [.printf (.ROE x rc)]) ∧
        r.exit = rc) ∧
    ((∀ c rc, .call c rc ∈ r.trace → rc = 0) → (∃ c rc, .call c rc ∈ r.trace) →
      ∀ x rc, .printf (.ROE x rc) ∉ r.trace) := by
  rcases main_ok_cases env fuel argc argv r h with h | ⟨rc0, _, h⟩ | ⟨st, _, h⟩
  · subst h
    constructor
    · intro pre c rc post hsplit hrc
      exact absurd (no_failed_split _ pre post c rc (by simp [usage, Event.failed]) hsplit) hrc
    · intro _ hex
      simp [usage] at hex
  · subst h
    constructor
    · intro pre c rc post hsplit hrc
      exact absurd (no_failed_split _ pre post c rc (by simp [roe_cstr, Event.failed]) hsplit)
        hrc
    · intro _ hex
      simp [roe_cstr] at hex
  · rcases main_device_shape env fuel st.scnt r h with
      ⟨i, s, rc0, hs, hrc0, _, _, hr⟩ | ⟨_, hr⟩ | ⟨_, _, hr⟩ | ⟨_, _, _, hr⟩ | ⟨_, n, _, _, _, hr⟩
    · subst hr
      constructor
      · intro pre c rc post hsplit hrc
        have hsplit1 : (ok_events ((all_steps env.devices st.scnt).take i) ++ s.pre) ++
            .call s.c rc0 :: [.printf (.ROE s.x rc0)] = pre ++ .call c rc :: post := by
          rw [← hsplit]
        obtain ⟨_, h2, h3⟩ := failed_unique _ [.printf (.ROE s.x rc0)]
          (by simp [Event.failed]) _ (ok_prefix_not_failed hs) pre post c rc hsplit1 hrc
        injection h2 with _ h2
        subst h3 h2
        exact ⟨by simp [Event.isDriver], ⟨_, rfl⟩, rfl⟩
      · intro hall
        exact absurd (hall s.c rc0 (by simp)) hrc0
    · subst hr
      constructor
      · intro pre c rc post hsplit hrc
        exact absurd (no_failed_split _ pre post c rc
          (by simp [steps_query, ok_events, Event.failed]) hsplit) hrc
      · intro _ _ x rc
        simp [steps_query, ok_events]
    · subst hr
      constructor
      · intro pre c rc post hsplit hrc
        exact absurd (no_failed_split _ pre post c rc
          (by simp [steps_query, ok_events, Event.failed]) hsplit) hrc
      · intro _ _ x rc
        simp [steps_query, ok_events]
    · subst hr
      constructor
      · intro pre c rc post hsplit hrc
        exact absurd (no_failed_split _ pre post c rc
          (by simp [steps_query, ok_events, Event.failed]) hsplit) hrc
      · intro _ _ x rc
        simp [steps_query, ok_events]
    · subst hr
      constructor
      · intro pre c rc post hsplit hrc
        exact absurd (no_failed_split _ pre post c rc
          (full_trace_not_failed _ _ _) hsplit) hrc
      · intro _ _ x rc
        simp [full_trace, all_steps, steps_query, steps_device, ok_events]

/-- C5, instance: `jsdrv_open` returns 7, so the run ends there with exit
status 7. -/
theorem roe_stops_main_witness :
    main 1 1 ["exe"]
        (demo_env_failing "u/js220/000001" 0 (.jsdrv_open "u/js220/000001") 7) =
      .ok demo_open_failed ∧
    ((∀ pre c rc post, demo_open_failed.trace = pre ++ .call c rc :: post → rc ≠ 0 →
      (∀ e ∈ post, e.isDriver = false) ∧ (∃ x, post = [.printf (.ROE x rc)]) ∧
        demo_open_failed.exit = rc) ∧
    ((∀ c rc, .call c rc ∈ demo_open_failed.trace → rc = 0) →
      (∃ c rc, .call c rc ∈ demo_open_failed.trace) →
      ∀ x rc, .printf (.ROE x rc) ∉ demo_open_failed.trace)) :=
  ⟨by decide, roe_stops_main
    (demo_env_failing "u/js220/000001" 0 (.jsdrv_open "u/js220/000001") 7) 1 1 ["exe"]
    demo_open_failed (by decide)⟩

theorem cstr_starts_with_iff (p : List Char) :
    ∀ s : List Char, cstr_starts_with s p = true ↔ ∃ rest, s = p ++ rest := by
  induction p with
  | nil => intro s; simp [cstr_starts_with]
  | cons c p ih =>
    intro s
    cases s with
    | nil => simp [cstr_starts_with]
    | cons a s =>
      by_cases hac : a = c
      · subst hac
        simp [cstr_starts_with, ih]
      · simp [cstr_starts_with, hac]

theorem jsdrv_cstr_starts_with_iff (s p : String) :
    jsdrv_cstr_starts_with s p = true ↔ ∃ rest : String, s = p ++ rest := by
  unfold jsdrv_cstr_starts_with
  rw [cstr_starts_with_iff]
  constructor
  · rintro ⟨rest, h⟩
    exact ⟨⟨rest⟩, String.ext (by simpa using h)⟩
  · rintro ⟨rest, h⟩
    exact ⟨rest.data, by rw [h]; simp⟩

theorem main_of_parse (env : Env) (fuel : Nat) (argc : Int) (argv : List String)
    (st : ArgState) (h : parse_args env fuel argc argv = some (.done st)) :
    main fuel argc argv env = main_device env fuel st.scnt := by
  unfold main
  rw [h]

theorem device_topic_slash (d sub : String) (hne : d ≠ "")
    (hlast : d.data.getLast? ≠ some '/') : device_topic d sub = d ++ "/" ++ sub := by
  unfold device_topic jsdrv_topic_append jsdrv_topic_set
  cases hl : d.data.getLast? with
  | none =>
    exfalso
    apply hne
    have : d.data = [] := by simpa using hl
    exact String.ext this
  | some c =>
    have hc : c ≠ '/' := by
      intro h
      apply hlast
      rw [hl, h]
    simp only [hc, if_false]

theorem full_trace_driver (d : String) (scnt n : Nat) :
    (full_trace d scnt n).filter Event.isDriver =
      [ .call (.jsdrv_initialize_ 1000) 0,
        .call .jsdrv_query_device_list 0,
        .call (.jsdrv_open d) 0,
        .call (.jsdrv_publish (device_topic d "s/i/range/mode") (jsdrv_union_cstr_r "auto")) 0,
        .call (.jsdrv_publish (device_topic d "s/v/range/mode")
          (jsdrv_union_cstr_r "manual")) 0,
        .call (.jsdrv_publish (device_topic d "s/v/range/select")
          (jsdrv_union_cstr_r "15 V")) 0,
        .call (.jsdrv_publish (device_topic d "s/stats/scnt") (jsdrv_union_u8_r scnt)) 0,
        .call (.jsdrv_subscribe (device_topic d "s/stats/value") .on_statistics_value) 0,
        .call (.jsdrv_publish (device_topic d "s/stats/ctrl") (jsdrv_union_u8_r 1)) 0,
        .jsdrv_finalize 1000 ] := by
  simp [full_trace, all_steps, steps_query, steps_device, ok_events, List.filter_cons,
    List.filter_append, List.filter_replicate, Event.isDriver, publish, subscribe]

theorem full_trace_eq (d : String) (scnt n : Nat) :
    full_trace d scnt n =
      [ .call (.jsdrv_initialize_ 1000) 0,
        .call .jsdrv_query_device_list 0,
        .printf (.found d),
        .call (.jsdrv_open d) 0,
        .call (.jsdrv_publish (device_topic d "s/i/range/mode") (jsdrv_union_cstr_r "auto")) 0,
        .call (.jsdrv_publish (device_topic d "s/v/range/mode")
          (jsdrv_union_cstr_r "manual")) 0,
        .call (.jsdrv_publish (device_topic d "s/v/range/select")
          (jsdrv_union_cstr_r "15 V")) 0,
        .call (.jsdrv_publish (device_topic d "s/stats/scnt") (jsdrv_union_u8_r scnt)) 0,
        .call (.jsdrv_subscribe (device_topic d "s/stats/value") .on_statistics_value) 0,
        .printf .header,
        .call (.jsdrv_publish (device_topic d "s/stats/ctrl") (jsdrv_union_u8_r 1)) 0,
        .signal SIGABRT, .signal SIGINT ] ++
      List.replicate n (.sleep_ms 10) ++ [.jsdrv_finalize 1000, .printf .success] := by
  simp [full_trace, all_steps, steps_query, steps_device, ok_events, publish, subscribe]

theorem main_ok_zero (env : Env) (fuel : Nat) (argc : Int) (argv : List String) (r : Run)
    (h : main fuel argc argv env = .ok r)
    (hzero : ∀ c rc, .call c rc ∈ r.trace → rc = 0)
    (hq : ∃ rc, .call .jsdrv_query_device_list rc ∈ r.trace)
    (hdev : supported env.devices) :
    ∃ st n, parse_args env fuel argc argv = some (.done st) ∧ n < fuel ∧
      (∀ m, m < n → quit_at env.signals m = 0) ∧ quit_at env.signals n ≠ 0 ∧
      r = ⟨full_trace env.devices st.scnt n, 0⟩ := by
  rcases main_ok_cases env fuel argc argv r h with h | ⟨rc0, _, h⟩ | ⟨st, hp, h⟩
  · subst h
    simp [usage] at hq
  · subst h
    simp [roe_cstr] at hq
  · rcases main_device_shape env fuel st.scnt r h with
      ⟨i, s, rc0, hs, hrc0, _, _, hr⟩ | ⟨h1, _⟩ | ⟨_, h2, _⟩ | ⟨_, _, h3, _⟩ |
      ⟨_, n, a, b, c, hr⟩
    · subst hr
      exact absurd (hzero s.c rc0 (by simp)) hrc0
    · exact absurd h1 hdev.1
    · exact absurd h2 hdev.2.1
    · rw [hdev.2.2] at h3
      cases h3
    · exact ⟨st, n, hp, a, b, c, hr⟩

/-- C9. On every finished run of `main` in which every driver call returned 0
and the device list is one supported device, the trace is exactly: initialize,
query of the device list, the `# Found device` line, open(device), publish
`s/i/range/mode` = `auto`, publish `s/v/range/mode` = `manual`, publish
`s/v/range/select` = `15 V`, publish `s/stats/scnt`, subscribe `s/stats/value`
with `on_statistics_value`, the CSV header line, publish `s/stats/ctrl` = 1,
the two handler installations, the sleeps, finalize, the success line.  So
the callback is registered and the header printed before streaming is
enabled, and every topic is the device identifier joined with the subtopic by
`jsdrv_topic_set` and `jsdrv_topic_append`. -/
theorem call_sequence (env : Env) (fuel : Nat) (argc : Int) (argv : List String) (r : Run)
    (h : main fuel argc argv env = .ok r)
    (hzero : ∀ c rc, .call c rc ∈ r.trace → rc = 0)
    (hq : ∃ rc, .call .jsdrv_query_device_list rc ∈ r.trace)
    (hdev : env.devices ≠ "" ∧ ',' ∉ env.devices.data ∧
      ∃ rest : String, env.devices = "u/js220" ++ rest) :
    ∃ st n, parse_args env fuel argc argv = some (.done st) ∧
      r.trace =
        [ .call (.jsdrv_initialize_ 1000) 0,
          .call .jsdrv_query_device_list 0,
          .printf (.found env.devices),
          .call (.jsdrv_open env.devices) 0,
          .call (.jsdrv_publish (device_topic env.devices "s/i/range/mode")
            (jsdrv_union_cstr_r "auto")) 0,
          .call (.jsdrv_publish (device_topic env.devices "s/v/range/mode")
            (jsdrv_union_cstr_r "manual")) 0,
          .call (.jsdrv_publish (device_topic env.devices "s/v/range/select")
            (jsdrv_union_cstr_r "15 V")) 0,
          .call (.jsdrv_publish (device_topic env.devices "s/stats/scnt")
            (jsdrv_union_u8_r st.scnt)) 0,
          .call (.jsdrv_subscribe (device_topic env.devices "s/stats/value")
            .on_statistics_value) 0,
          .printf .header,
          .call (.jsdrv_publish (device_topic env.devices "s/stats/ctrl")
            (jsdrv_union_u8_r 1)) 0,
          .signal SIGABRT, .signal SIGINT ] ++
        List.replicate n (.sleep_ms 10) ++ [.jsdrv_finalize 1000, .printf .success] ∧
      r.trace.filter Event.isDriver =
        [ .call (.jsdrv_initialize_ 1000) 0,
          .call .jsdrv_query_device_list 0,
          .call (.jsdrv_open env.devices) 0,
          .call (.jsdrv_publish (device_topic env.devices "s/i/range/mode")
            (jsdrv_union_cstr_r "auto")) 0,
          .call (.jsdrv_publish (device_topic env.devices "s/v/range/mode")
            (jsdrv_union_cstr_r "manual")) 0,
          .call (.jsdrv_publish (device_topic env.devices "s/v/range/select")
            (jsdrv_union_cstr_r "15 V")) 0,
          .call (.jsdrv_publish (device_topic env.devices "s/stats/scnt")
            (jsdrv_union_u8_r st.scnt)) 0,
          .call (.jsdrv_subscribe (device_topic env.devices "s/stats/value")
            .on_statistics_value) 0,
          .call (.jsdrv_publish (device_topic env.devices "s/stats/ctrl")
            (jsdrv_union_u8_r 1)) 0,
          .jsdrv_finalize 1000 ] ∧
      (jsdrv_union_u8_r 1).numeric = some 1 ∧
      (∀ sub, device_topic env.devices sub =
        jsdrv_topic_append (jsdrv_topic_set env.devices) sub) ∧
      (env.devices.data.getLast? ≠ some '/' →
        ∀ sub, device_topic env.devices sub = env.devices ++ "/" ++ sub) := by
  have hsup : supported env.devices :=
    ⟨hdev.1, hdev.2.1, (jsdrv_cstr_starts_with_iff _ _).2 hdev.2.2⟩
  obtain ⟨st, n, hp, _, _, _, hr⟩ := main_ok_zero env fuel argc argv r h hzero hq hsup
  subst hr
  refine ⟨st, n, hp, full_trace_eq _ _ _, full_trace_driver _ _ _, rfl, fun _ => rfl, ?_⟩
  intro hlast sub
  exact device_topic_slash _ _ hdev.1 hlast

/-- C9, instance: the default run with one JS220 and `SIGINT` during the first
sleep. -/
theorem call_sequence_witness :
    main 2 1 ["exe"] (demo_env "u/js220/000001" 1) = .ok demo_default_run ∧
      ∃ st, parse_args (demo_env "u/js220/000001" 1) 2 1 ["exe"] = some (.done st) ∧
        demo_default_run.trace.filter Event.isDriver =
          [ .call (.jsdrv_initialize_ 1000) 0,
            .call .jsdrv_query_device_list 0,
            .call (.jsdrv_open "u/js220/000001") 0,
            .call (.jsdrv_publish (device_topic "u/js220/000001" "s/i/range/mode")
              (jsdrv_union_cstr_r "auto")) 0,
            .call (.jsdrv_publish (device_topic "u/js220/000001" "s/v/range/mode")
              (jsdrv_union_cstr_r "manual")) 0,
            .call (.jsdrv_publish (device_topic "u/js220/000001" "s/v/range/select")
              (jsdrv_union_cstr_r "15 V")) 0,
            .call (.jsdrv_publish (device_topic "u/js220/000001" "s/stats/scnt")
              (jsdrv_union_u8_r st.scnt)) 0,
            .call (.jsdrv_subscribe (device_topic "u/js220/000001" "s/stats/value")
              .on_statistics_value) 0,
            .call (.jsdrv_publish (device_topic "u/js220/000001" "s/stats/ctrl")
              (jsdrv_union_u8_r 1)) 0,
            .jsdrv_finalize 1000 ] :=
  ⟨by decide,
    let ⟨st, _, hn⟩ := call_sequence (demo_env "u/js220/000001" 1) 2 1 ["exe"]
      demo_default_run (by decide)
      (by
        intro c rc hc
        simp only [demo_default_run, List.mem_cons, Event.call.injEq, reduceCtorEq,
          List.mem_singleton, List.not_mem_nil, or_false, false_or] at hc
        rcases hc with h | h | h | h | h | h | h | h | h <;> exact h.2)
      ⟨0, by decide⟩
      ⟨by decide, by decide, "/000001", by decide⟩
    ⟨st, hn.1, hn.2.2.1⟩⟩

theorem deliver_one (sigs : List Int) : deliver sigs 1 = 1 := by
  induction sigs with
  | nil => rfl
  | cons s sigs ih =>
    have h : signal_handler s 1 = 1 := by
      unfold signal_handler
      split <;> rfl
    simpa [deliver, h] using ih

theorem deliver_mem (sigs : List Int) (q : Int)
    (h : SIGINT ∈ sigs ∨ SIGABRT ∈ sigs) : deliver sigs q = 1 := by
  induction sigs generalizing q with
  | nil => simp at h
  | cons s sigs ih =>
    by_cases hs : s = SIGABRT ∨ s = SIGINT
    · have h1 : signal_handler s q = 1 := by
        unfold signal_handler
        rw [if_pos hs]
      show deliver sigs (signal_handler s q) = 1
      rw [h1]
      exact deliver_one sigs
    · have h2 : SIGINT ∈ sigs ∨ SIGABRT ∈ sigs := by
        rcases h with h | h
        · rcases List.mem_cons.1 h with h | h
          · exact absurd (Or.inr h.symm) hs
          · exact Or.inl h
        · rcases List.mem_cons.1 h with h | h
          · exact absurd (Or.inl h.symm) hs
          · exact Or.inr h
      exact ih _ h2

theorem quit_at_mem (signals : Nat → List Int) (k : Nat)
    (h : SIGINT ∈ signals k ∨ SIGABRT ∈ signals k) : quit_at signals k = 1 := by
  cases k with
  | zero => exact deliver_mem _ _ h
  | succ k => exact deliver_mem _ _ h

theorem full_trace_counts (d : String) (scnt n : Nat) :
    ((full_trace d scnt n).filter Event.isSleep = List.replicate n (.sleep_ms 10)) ∧
      (full_trace d scnt n).filter Event.isFinalize = [.jsdrv_finalize 1000] ∧
      (full_trace d scnt n).getLast? = some (.printf .success) := by
  refine ⟨?_, ?_, ?_⟩
  · simp [full_trace, all_steps, steps_query, steps_device, ok_events, List.filter_cons,
      List.filter_append, List.filter_replicate, Event.isSleep]
  · simp [full_trace, all_steps, steps_query, steps_device, ok_events, List.filter_cons,
      List.filter_append, List.filter_replicate, Event.isFinalize]
  · have h : full_trace d scnt n =
        (ok_events (all_steps d scnt) ++ [.signal SIGABRT, .signal SIGINT] ++
          List.replicate n (.sleep_ms 10) ++ [.jsdrv_finalize 1000]) ++ [.printf .success] := by
      simp [full_trace]
    rw [h, List.getLast?_concat]

theorem main_device_ok (env : Env) (fuel scnt n : Nat)
    (hzero : ∀ t c, env.status t c = 0) (hdev : supported env.devices)
    (hn : n < fuel) (hq0 : ∀ m, m < n → quit_at env.signals m = 0)
    (hq : quit_at env.signals n ≠ 0) :
    main_device env fuel scnt = .ok ⟨full_trace env.devices scnt n, 0⟩ := by
  rw [main_device_supported env fuel scnt hdev]
  rcases run_steps_cases env (main_poll env fuel) (all_steps env.devices scnt) [] with
    ⟨i, s, _, hne, _⟩ | ⟨_, hrun⟩
  · exact absurd (hzero _ _) hne
  · rw [hrun, main_poll_ok_iff]
    exact ⟨n, hn, hq0, hq, by simp [full_trace]⟩

/-- C8. The handler sets `quit_` to 1 on `SIGINT` and on `SIGABRT` and never
changes a flag that is 1, so once set the flag stays set at every later test.
A run of `main` returns 0 only after argument parsing was passed, every
checked driver call returned 0 and the polling loop saw the flag set: its
trace is the nine calls, then `n` sleeps of 10 ms where `n` is the first test
at which the flag is not 0 (so no sleep is started after the one during which
the signal arrived), then `jsdrv_finalize` exactly once, with timeout 1000,
then the success line.  And when the driver answers 0 to every call, one
supported device is found and the flag is first set at test `n`, `main` does
return 0 that way, given fuel for `n + 1` tests. -/
theorem quit_then_finalize :
    (∀ sig q : Int, ((sig = SIGINT ∨ sig = SIGABRT) → signal_handler sig q = 1) ∧
      (q = 1 → signal_handler sig q = 1)) ∧
    (∀ (signals : Nat → List Int) (k : Nat),
      ((SIGINT ∈ signals k ∨ SIGABRT ∈ signals k) → quit_at signals k = 1) ∧
      (quit_at signals k = 1 → ∀ j, quit_at signals (k + j) = 1)) ∧
    (∀ (env : Env) (fuel : Nat) (argc : Int) (argv : List String) (r : Run),
      main fuel argc argv env = .ok r → r.exit = 0 →
      ∃ st n, parse_args env fuel argc argv = some (.done st) ∧
        (∀ m, m < n → quit_at env.signals m = 0) ∧ quit_at env.signals n ≠ 0 ∧
        r.trace = full_trace env.devices st.scnt n ∧
        (∀ c rc, .call c rc ∈ r.trace → rc = 0) ∧
        r.trace.filter Event.isSleep = List.replicate n (.sleep_ms 10) ∧
        (∀ k, (SIGINT ∈ env.signals k ∨ SIGABRT ∈ env.signals k) → n ≤ k) ∧
        r.trace.filter Event.isFinalize = [.jsdrv_finalize 1000] ∧
        r.trace.getLast? = some (.printf .success)) ∧
    (∀ (env : Env) (fuel : Nat) (argc : Int) (argv : List String) (st : ArgState) (n : Nat),
      parse_args env fuel argc argv = some (.done st) →
      (∀ t c, env.status t c = 0) → supported env.devices →
      (∀ m, m < n → quit_at env.signals m = 0) → quit_at env.signals n ≠ 0 → n < fuel →
      main fuel argc argv env = .ok ⟨full_trace env.devices st.scnt n, 0⟩) := by
  refine ⟨?_, ?_, ?_, ?_⟩
  · intro sig q
    constructor
    · intro h
      unfold signal_handler
      rw [if_pos (by tauto)]
    · intro h
      unfold signal_handler
      split
      · rfl
      · exact h
  · intro signals k
    refine ⟨quit_at_mem signals k, ?_⟩
    intro h j
    induction j with
    | zero => exact h
    | succ j ih =>
      show deliver (signals (k + j + 1)) (quit_at signals (k + j)) = 1
      rw [ih]
      exact deliver_one _
  · intro env fuel argc argv r h hexit
    rcases main_ok_cases env fuel argc argv r h with h | ⟨rc0, hrc0, h⟩ | ⟨st, hp, h⟩
    · subst h
      simp [usage] at hexit
    · subst h
      exact absurd hexit hrc0
    · rcases main_device_shape env fuel st.scnt r h with
        ⟨i, s, rc0, hs, hrc0, _, _, hr⟩ | ⟨_, hr⟩ | ⟨_, _, hr⟩ | ⟨_, _, _, hr⟩ |
        ⟨_, n, _, b, c, hr⟩
      · subst hr
        exact absurd hexit hrc0
      · subst hr
        simp at hexit
      · subst hr
        simp at hexit
      · subst hr
        simp at hexit
      · subst hr
        obtain ⟨c1, c2, c3⟩ := full_trace_counts env.devices st.scnt n
        refine ⟨st, n, hp, b, c, rfl, ?_, c1, ?_, c2, c3⟩
        · intro cl rc hm
          have := full_trace_not_failed env.devices st.scnt n _ hm
          simpa [Event.failed] using this
        · intro k hk
          by_contra hlt
          have h1 := quit_at_mem env.signals k hk
          rw [b k (by omega)] at h1
          cases h1
  · intro env fuel argc argv st n hp hzero hdev hq0 hq hn
    rw [main_of_parse env fuel argc argv st hp]
    exact main_device_ok env fuel st.scnt n hzero hdev hn hq0 hq

/-- C8, instance: `SIGINT` during the first sleep; `main` returns 0 after one
sleep. -/
theorem quit_then_finalize_witness :
    parse_args (demo_env "u/js220/000001" 1) 2 1 ["exe"] = some (.done ⟨0, 1, 500000, []⟩) ∧
      supported (demo_env "u/js220/000001" 1).devices ∧
      quit_at (demo_env "u/js220/000001" 1).signals 0 = 0 ∧
      quit_at (demo_env "u/js220/000001" 1).signals 1 ≠ 0 ∧
      main 2 1 ["exe"] (demo_env "u/js220/000001" 1) =
        .ok ⟨full_trace "u/js220/000001" 500000 1, 0⟩ :=
  ⟨by decide, by decide, by decide, by decide,
    quit_then_finalize.2.2.2 (demo_env "u/js220/000001" 1) 2 1 ["exe"] ⟨0, 1, 500000, []⟩ 1
      (by decide) (fun _ _ => rfl) (by decide)
      (by intro m hm; interval_cases m; decide) (by decide) (by decide)⟩

theorem arg_spec_pairs (env : Env) (more : List String) :
    ∀ (vs : List String) (scnt : Nat), (∀ v ∈ vs, (env.jsdrv_cstr_to_u32 v).1 = 0) →
      arg_spec env (scnt_pairs vs ++ more) scnt = arg_spec env more (scnt_after env vs scnt) := by
  intro vs
  induction vs with
  | nil => intro scnt _; rfl
  | cons v vs ih =>
    intro scnt hv
    have h0 : (env.jsdrv_cstr_to_u32 v).1 = 0 := hv v (by simp)
    show arg_spec env ("--scnt" :: v :: (scnt_pairs vs ++ more)) scnt = _
    simp only [arg_spec, if_true, ne_eq, h0, not_true_eq_false, if_false]
    rw [ih _ (fun w hw => hv w (by simp [hw]))]
    rfl

theorem arg_spec_done (env : Env) :
    ∀ (n : Nat) (rest : List String) (scnt s1 : Nat), rest.length ≤ n →
      arg_spec env rest scnt = .done s1 →
      ∃ vs, rest = scnt_pairs vs ∧ ∀ v ∈ vs, (env.jsdrv_cstr_to_u32 v).1 = 0 := by
  intro n
  induction n with
  | zero =>
    intro rest scnt s1 hl _
    have : rest = [] := List.length_eq_zero.1 (by omega)
    exact ⟨[], by simp [this, scnt_pairs], by simp⟩
  | succ n ih =>
    intro rest scnt s1 hl h
    match rest, hl, h with
    | [], _, _ => exact ⟨[], by simp [scnt_pairs], by simp⟩
    | [a], _, h => simp [arg_spec] at h
    | a :: v :: rest1, hl, h =>
      by_cases ha : a = "--scnt"
      · by_cases hv : (env.jsdrv_cstr_to_u32 v).1 = 0
        · simp only [arg_spec, ha, if_true, ne_eq, hv, not_true_eq_false, if_false] at h
          obtain ⟨vs, h1, h2⟩ := ih rest1 _ s1 (by simp at hl; omega) h
          refine ⟨v :: vs, by simp [scnt_pairs, ha, h1], ?_⟩
          intro w hw
          rcases List.mem_cons.1 hw with hw | hw
          · rw [hw]; exact hv
          · exact h2 w hw
        · simp [arg_spec, ha, hv] at h
      · simp [arg_spec, ha] at h

theorem arg_spec_usage (env : Env) (more : List String) (scnt : Nat)
    (h : more = ["--scnt"] ∨ ∃ a tl, more = a :: tl ∧ a ≠ "--scnt") :
    arg_spec env more scnt = .usage := by
  rcases h with h | ⟨a, tl, h, ha⟩
  · subst h; rfl
  · subst h
    cases tl with
    | nil => rfl
    | cons v tl => simp [arg_spec, ha]

theorem parse_done_iff (env : Env) (fuel : Nat) (exe : String) (rest : List String)
    (hf : rest.length + 1 ≤ fuel) (s1 : Nat) :
    (∃ st, parse_args env fuel ((exe :: rest).length : Nat) (exe :: rest) = some (.done st) ∧
      st.scnt = s1) ↔ arg_spec env rest 500000 = .done s1 := by
  obtain ⟨res, hres, hm, _⟩ := parse_args_spec env fuel (exe :: rest).length (exe :: rest)
    (by simp) (by simp) (by simpa using hf)
  have hrest : ((exe :: rest).drop 1).take ((exe :: rest).length - 1) = rest := by simp
  rw [hrest] at hm
  rw [hres]
  constructor
  · rintro ⟨st, h, hs⟩
    injection h with h
    subst h
    cases ho : arg_spec env rest 500000 with
    | done s2 =>
      rw [ho] at hm
      have : st.scnt = s2 := hm.1
      rw [← this, hs]
    | usage => rw [ho] at hm; exact absurd hm (by simp [ArgOutcome.matches])
    | roe rc => rw [ho] at hm; exact absurd hm (by simp [ArgOutcome.matches])
  · intro ho
    rw [ho] at hm
    cases res with
    | done st => exact ⟨st, rfl, hm.1⟩
    | next st => exact absurd hm (by simp [ArgOutcome.matches])
    | returned r rd => exact absurd hm (by simp [ArgOutcome.matches])
    | fault rd => exact absurd hm (by simp [ArgOutcome.matches])

/-- C3 (amended). `main` gets past argument parsing exactly when the arguments
after the executable name are a sequence, possibly empty, of `--scnt <value>`
pairs whose values the library parser all accepts.  When, after zero or more
accepted pairs, the next argument is not `--scnt` (it does not start with `-`,
or it is another option) or is a last `--scnt` without a value, and when
`argc <= 0`, `main` prints the usage text and returns 1, and that is its whole
trace: no driver call is made. -/
theorem parse_accepts_scnt_pairs (env : Env) (fuel : Nat) (exe : String)
    (rest : List String) (hf : rest.length + 1 ≤ fuel) :
    ((∃ st, parse_args env fuel ((exe :: rest).length : Nat) (exe :: rest) =
        some (.done st)) ↔
      ∃ vs, rest = scnt_pairs vs ∧ ∀ v ∈ vs, (env.jsdrv_cstr_to_u32 v).1 = 0) ∧
    (∀ vs more, rest = scnt_pairs vs ++ more → (∀ v ∈ vs, (env.jsdrv_cstr_to_u32 v).1 = 0) →
      (more = ["--scnt"] ∨ ∃ a tl, more = a :: tl ∧ a ≠ "--scnt") →
      main fuel ((exe :: rest).length : Nat) (exe :: rest) env =
        .ok ⟨[.printf .usage], 1⟩) ∧
    (∀ (argc : Int) (argv : List String), argc ≤ 0 →
      main fuel argc argv env = .ok ⟨[.printf .usage], 1⟩) ∧
    Message.usage.text = usage_text := by
  refine ⟨?_, ?_, ?_, rfl⟩
  · constructor
    · rintro ⟨st, h⟩
      have := (parse_done_iff env fuel exe rest hf st.scnt).1 ⟨st, h, rfl⟩
      exact arg_spec_done env rest.length rest _ _ (le_refl _) this
    · rintro ⟨vs, h1, h2⟩
      have h3 := arg_spec_pairs env [] vs 500000 h2
      rw [List.append_nil, ← h1] at h3
      obtain ⟨st, h4, _⟩ := (parse_done_iff env fuel exe rest hf _).2 h3
      exact ⟨st, h4⟩
  · intro vs more h1 h2 h3
    rw [main_cons env fuel exe rest hf, h1, arg_spec_pairs env more vs 500000 h2,
      arg_spec_usage env more _ h3]
    rfl
  · intro argc argv h
    rw [main_nonpos env fuel argc argv h]
    rfl

/-- C3, instance: an accepted pair followed by the unknown option `-x`. -/
theorem parse_accepts_scnt_pairs_witness :
    (["--scnt", "1000", "-x"] : List String).length + 1 ≤ 4 ∧
      ((demo_env "u/js220/000001" 0).jsdrv_cstr_to_u32 "1000").1 = 0 ∧
      main 4 4 ["exe", "--scnt", "1000", "-x"] (demo_env "u/js220/000001" 0) =
        .ok ⟨[.printf .usage], 1⟩ :=
  ⟨by decide, by decide,
    (parse_accepts_scnt_pairs (demo_env "u/js220/000001" 0) 4 "exe" ["--scnt", "1000", "-x"]
      (by decide)).2.1 ["1000"] ["-x"] rfl (by decide) (Or.inr ⟨"-x", [], rfl, by decide⟩)⟩

/-- C3, counterexample: the arguments `--scnt 1000 --scnt 2000` are neither
empty nor a single `--scnt <value>`, yet parsing is passed with `scnt = 2000`
and `main` goes on to the driver and returns 0 without printing the usage
text.  And for `--scnt abc -x`, which holds an unknown option, `main` prints
the `ROE` line for the rejected value, not the usage text. -/
theorem repeated_scnt_accepted :
    (["--scnt", "1000", "--scnt", "2000"] : List String) ≠ [] ∧
      (∀ v : String, ["--scnt", "1000", "--scnt", "2000"] ≠ ["--scnt", v]) ∧
      parse_args (demo_env "u/js220/000001" 0) 5 5
          ["exe", "--scnt", "1000", "--scnt", "2000"] =
        some (.done ⟨0, 5, 2000, [1, 1, 2, 3, 3, 4]⟩) ∧
      main 5 5 ["exe", "--scnt", "1000", "--scnt", "2000"] (demo_env "u/js220/000001" 0) ≠
        .ok (usage []) ∧
      (main 5 5 ["exe", "--scnt", "1000", "--scnt", "2000"]
          (demo_env "u/js220/000001" 0)).toOption.map
          (fun r => (r.exit, r.trace.any Event.isDriver, r.trace.contains (.printf .usage))) =
        some (0, true, false) ∧
      main 4 4 ["exe", "--scnt", "abc", "-x"] (demo_env "u/js220/000001" 0) =
        .ok ⟨[.printf (.ROE "jsdrv_cstr_to_u32(argv[0], &scnt)" 1)], 1⟩ ∧
      main 4 4 ["exe", "--scnt", "abc", "-x"] (demo_env "u/js220/000001" 0) ≠
        .ok ⟨[.printf .usage], 1⟩ := by
  refine ⟨by decide, ?_, by decide, by decide, by decide, by decide, by decide⟩
  intro v h
  cases h

/-- C10. For `argc >= 0` and an array `argv` with at least `argc` entries, the
argument parsing of `main` ends within `argc` passes of its loop, by leaving
the loop or by a `return`, and reads `argv` only at indices below `argc`; and
when the arguments are `--scnt <value>` one or more times with values the
library parser accepts, it leaves `scnt` equal to the value of the last one. -/
theorem arg_loop_safe (env : Env) (fuel argc : Nat) (argv : List String)
    (hlen : argc ≤ argv.length) (hf : argc ≤ fuel) :
    (∃ res, parse_args env fuel (argc : Int) argv = some res ∧
      ((∃ st, res = .done st) ∨ ∃ r rd, res = .returned r rd) ∧
      ∀ i ∈ res.reads, i < argc) ∧
    (∀ exe vs v, argv = exe :: scnt_pairs (vs ++ [v]) → argc = argv.length →
      (∀ w ∈ vs ++ [v], (env.jsdrv_cstr_to_u32 w).1 = 0) →
      ∃ st, parse_args env fuel (argc : Int) argv = some (.done st) ∧
        st.scnt = (env.jsdrv_cstr_to_u32 v).2 % 2 ^ 32) := by
  constructor
  · rcases Nat.eq_zero_or_pos argc with h0 | hpos
    · subst h0
      refine ⟨.returned (usage []) [], ?_, Or.inr ⟨_, _, rfl⟩, by simp [ArgStep.reads]⟩
      simp [parse_args]
    · obtain ⟨res, h1, h2, h3⟩ := parse_args_spec env fuel argc argv hpos hlen hf
      refine ⟨res, h1, ?_, h3⟩
      cases res with
      | done st => exact Or.inl ⟨st, rfl⟩
      | returned r rd => exact Or.inr ⟨r, rd, rfl⟩
      | next st =>
        cases ho : arg_spec env ((argv.drop 1).take (argc - 1)) 500000 <;>
          rw [ho] at h2 <;> exact absurd h2 (by simp [ArgOutcome.matches])
      | fault rd =>
        cases ho : arg_spec env ((argv.drop 1).take (argc - 1)) 500000 <;>
          rw [ho] at h2 <;> exact absurd h2 (by simp [ArgOutcome.matches])
  · intro exe vs v hargv hargc hvalid
    subst hargv
    subst hargc
    have h3 := arg_spec_pairs env [] (vs ++ [v]) 500000 hvalid
    rw [List.append_nil] at h3
    have h4 : scnt_after env (vs ++ [v]) 500000 = (env.jsdrv_cstr_to_u32 v).2 % 2 ^ 32 := by
      simp [scnt_after, List.foldl_append]
    rw [h4] at h3
    exact (parse_done_iff env fuel exe _ (by simpa using hf) _).2 h3

/-- C10, instance: `--scnt 1000 --scnt 2000` leaves `scnt = 2000` and reads
indices 1 to 4 only. -/
theorem arg_loop_safe_witness :
    (5 : Nat) ≤ (["exe", "--scnt", "1000", "--scnt", "2000"] : List String).length ∧
      (∃ res, parse_args (demo_env "u/js220/000001" 0) 5 ((5 : Nat) : Int)
          ["exe", "--scnt", "1000", "--scnt", "2000"] = some res ∧
        ((∃ st, res = .done st) ∨ ∃ r rd, res = .returned r rd) ∧
        ∀ i ∈ res.reads, i < 5) ∧
      parse_args (demo_env "u/js220/000001" 0) 5 ((5 : Nat) : Int)
          ["exe", "--scnt", "1000", "--scnt", "2000"] =
        some (.done ⟨0, 5, 2000, [1, 1, 2, 3, 3, 4]⟩) :=
  ⟨by decide,
    (arg_loop_safe (demo_env "u/js220/000001" 0) 5 5
      ["exe", "--scnt", "1000", "--scnt", "2000"] (by decide) (by decide)).1,
    by decide⟩

theorem main_device_props (env : Env) (fuel scnt : Nat) (r : Run)
    (h : main_device env fuel scnt = .ok r) :
    .printf .usage ∉ r.trace ∧
      (∃ rc, r.trace.head? = some (.call (.jsdrv_initialize_ 1000) rc)) ∧
      (r.exit = 0 →
        .call (.jsdrv_publish (device_topic env.devices "s/stats/scnt")
          (jsdrv_union_u8_r scnt)) 0 ∈ r.trace) := by
  rcases main_device_shape env fuel scnt r h with
    ⟨i, s, rc0, hs, hrc0, _, _, hr⟩ | ⟨_, hr⟩ | ⟨_, _, hr⟩ | ⟨_, _, _, hr⟩ |
    ⟨_, n, _, _, _, hr⟩
  · have hi := all_steps_get hs
    subst hr
    refine ⟨?_, ?_, fun h0 => absurd h0 hrc0⟩
    · interval_cases i <;> simp [all_steps, steps_query, steps_device] at hs <;> subst hs <;>
        simp [all_steps, steps_query, steps_device, ok_events]
    · interval_cases i <;> simp [all_steps, steps_query, steps_device] at hs <;> subst hs <;>
        simp [all_steps, steps_query, steps_device, ok_events]
  · subst hr
    simp [steps_query, ok_events]
  · subst hr
    simp [steps_query, ok_events]
  · subst hr
    simp [steps_query, ok_events]
  · subst hr
    simp [full_trace_eq]

/-- C7 (amended). A value of `--scnt` that the library parser accepts is
accepted by `main` whatever its size: no range check is made.  `main` passes
argument parsing with that value in `scnt` and goes on to the driver; a run
that returns starts with the `jsdrv_initialize` call and never prints the usage
text, and a run that returns 0 has made the publish call on
`<device>/s/stats/scnt` with the union built from the value. -/
theorem out_of_range_scnt_accepted (env : Env) (fuel : Nat) (exe v : String) (n : Nat)
    (hf : 3 ≤ fuel) (hv : env.jsdrv_cstr_to_u32 v = (0, n)) :
    main fuel 3 [exe, "--scnt", v] env = main_device env fuel (n % 2 ^ 32) ∧
    (∃ st, parse_args env fuel 3 [exe, "--scnt", v] = some (.done st) ∧
      st.scnt = n % 2 ^ 32) ∧
    (∀ r, main fuel 3 [exe, "--scnt", v] env = .ok r →
      .printf .usage ∉ r.trace ∧
      (∃ rc, r.trace.head? = some (.call (.jsdrv_initialize_ 1000) rc)) ∧
      (r.exit = 0 →
        .call (.jsdrv_publish (device_topic env.devices "s/stats/scnt")
          (jsdrv_union_u8_r (n % 2 ^ 32))) 0 ∈ r.trace)) := by
  have hspec : arg_spec env ["--scnt", v] 500000 = .done (n % 2 ^ 32) := by
    simp [arg_spec, hv]
  have hmain : main fuel 3 [exe, "--scnt", v] env = main_device env fuel (n % 2 ^ 32) := by
    have := main_cons env fuel exe ["--scnt", v] (by simpa using hf)
    rw [hspec] at this
    exact this
  refine ⟨hmain, ?_, ?_⟩
  · exact (parse_done_iff env fuel exe ["--scnt", v] (by simpa using hf) _).2 hspec
  · intro r hr
    rw [hmain] at hr
    exact main_device_props env fuel _ r hr

/-- C7, instance: the value 1000001, above the documented range. -/
theorem out_of_range_scnt_accepted_witness :
    (demo_env "u/js220/000001" 0).jsdrv_cstr_to_u32 "1000001" = (0, 1000001) ∧
      main 3 3 ["exe", "--scnt", "1000001"] (demo_env "u/js220/000001" 0) =
        main_device (demo_env "u/js220/000001" 0) 3 (1000001 % 2 ^ 32) ∧
      ∃ r, main_device (demo_env "u/js220/000001" 0) 3 (1000001 % 2 ^ 32) = .ok r ∧
        r.exit = 0 :=
  ⟨by decide,
    (out_of_range_scnt_accepted (demo_env "u/js220/000001" 0) 3 "exe" "1000001" 1000001
      (by decide) (by decide)).1,
    ⟨_, main_device_ok (demo_env "u/js220/000001" 0) 3 _ 0 (fun _ _ => rfl) (by decide)
      (by decide) (by intro m hm; omega) (by decide), rfl⟩⟩

/-- C7, counterexample: the value 0, below the documented range, is not
rejected: `main` returns 0, never prints the usage text and makes the publish
call on `s/stats/scnt` with the union built from 0. -/
theorem scnt_zero_published :
    (demo_env "u/js220/000001" 0).jsdrv_cstr_to_u32 "0" = (0, 0) ∧
      ¬ (1000 ≤ 0 ∧ 0 ≤ 1000000) ∧
      (main 3 3 ["exe", "--scnt", "0"] (demo_env "u/js220/000001" 0)).toOption.map
          (fun r => (r.exit, r.trace.contains (.printf .usage),
            r.trace.contains
              (.call (.jsdrv_publish "u/js220/000001/s/stats/scnt" (jsdrv_union_u8_r 0)) 0))) =
        some (0, false, true) := by
  decide

theorem split_commas_field (f : List Char) (hf : ',' ∉ f) : split_commas f = [f] := by
  induction f with
  | nil => rfl
  | cons c f ih =>
    have hc : c ≠ ',' := fun h => hf (by simp [h])
    have hf1 : ',' ∉ f := fun h => hf (by simp [h])
    simp [split_commas, hc, ih hf1]

theorem split_commas_append (f rest : List Char) (hf : ',' ∉ f) :
    split_commas (f ++ ',' :: rest) = f :: split_commas rest := by
  induction f with
  | nil => simp [split_commas]
  | cons c f ih =>
    have hc : c ≠ ',' := fun h => hf (by simp [h])
    have hf1 : ',' ∉ f := fun h => hf (by simp [h])
    simp [split_commas, hc, ih hf1]

theorem csv_fields_join : ∀ fs : List String, fs ≠ [] → (∀ f ∈ fs, ',' ∉ f.data) →
    csv_fields (csv_join fs) = fs := by
  intro fs
  induction fs with
  | nil => intro h; exact absurd rfl h
  | cons a fs ih =>
    intro _ hfs
    have ha : ',' ∉ a.data := hfs a (by simp)
    cases fs with
    | nil => simp [csv_join, csv_fields, split_commas_field _ ha]
    | cons b rest =>
      have ih1 := ih (by simp) (fun f hf => hfs f (by simp [hf]))
      have hd : (csv_join (a :: b :: rest)).data =
          a.data ++ ',' :: (csv_join (b :: rest)).data := by
        simp [csv_join, String.data_append]
      unfold csv_fields at ih1 ⊢
      rw [hd, split_commas_append _ _ ha, List.map_cons, ih1]

/-- C6 (amended). For every statistics record, `on_statistics_value` writes one
line: fifteen fields joined by commas, then a newline.  The fields are, in
order, the sample id, then avg, std, min and max of current, of voltage and of
power, then charge and energy; when no rendered number contains a comma the
line cut at its commas gives back exactly these fifteen fields.  The header
printed by `main` is `# ` followed by fifteen column names joined by commas,
and each field of a row is the member of the record named by the column at the
same position. -/
theorem statistics_row_fifteen_fields {I F : Type} (d64 : I → String) (g : F → String)
    (s : jsdrv_statistics_s I F) :
    on_statistics_value d64 g s = csv_join (stat_fields d64 g s) ++ "\n" ∧
    (stat_fields d64 g s).length = 15 ∧
    ((∀ f ∈ stat_fields d64 g s, ',' ∉ f.data) →
      csv_fields (csv_join (stat_fields d64 g s)) = stat_fields d64 g s) ∧
    Message.header.text = "# " ++ csv_join header_columns ++ "\n" ∧
    header_columns.length = 15 ∧
    stat_fields d64 g s = header_columns.map (column_value d64 g s) := by
  refine ⟨?_, rfl, ?_, by decide, rfl, ?_⟩
  · simp only [on_statistics_value, stat_fields, csv_join, String.append_assoc]
  · intro h
    exact csv_fields_join _ (by simp [stat_fields]) h
  · simp [stat_fields, header_columns, column_value]

/-- C6, instance: a record with integer values. -/
theorem statistics_row_fifteen_fields_witness :
    (∀ f ∈ stat_fields (fun i : Int => toString i) (fun x : Int => toString x)
        demo_statistics, ',' ∉ f.data) ∧
      csv_fields (csv_join (stat_fields (fun i : Int => toString i)
          (fun x : Int => toString x) demo_statistics)) =
        stat_fields (fun i : Int => toString i) (fun x : Int => toString x) demo_statistics :=
  ⟨by decide,
    (statistics_row_fifteen_fields (fun i : Int => toString i) (fun x : Int => toString x)
      demo_statistics).2.2.1 (by decide)⟩

/-- C6, counterexample: a row has fifteen comma-separated fields, not
fourteen. -/
theorem statistics_row_not_fourteen_fields :
    on_statistics_value (fun i : Int => toString i) (fun x : Int => toString x)
        demo_statistics = "1000000,1,0,0,2,3,0,3,3,3,0,0,6,5,15\n" ∧
      csv_fields "1000000,1,0,0,2,3,0,3,3,3,0,0,6,5,15" =
        ["1000000", "1", "0", "0", "2", "3", "0", "3", "3", "3", "0", "0", "6", "5", "15"] ∧
      (csv_fields "1000000,1,0,0,2,3,0,3,3,3,0,0,6,5,15").length ≠ 14 := by
  decide

end JsdrvTemplate
